import Mathlib

/-!
Verification development for the furniture e-commerce catalog backend.
The definitions below are a shallow embedding of the category, product and
product-image services: the in-memory stores become explicit values threaded
through the functions, thrown service errors become `Except` results, and
JavaScript numbers holding integer ids, counters and ordering keys become
`Nat` (with `Int` where a signed delta occurs).  Each definition is a direct
translation of the corresponding function in the source tree.
-/

/-- Error taxonomy of the structured service error type: validation failures,
business-rule violations and missing records, plus a constructor for the one
plain limit error raised by the raw store. -/
inductive ErrCode where
  | VALIDATION_ERROR
  | BUSINESS_RULE_ERROR
  | NOT_FOUND
  | INTERNAL
deriving DecidableEq, Repr

/-- Structured service error carrying a code, a message and an HTTP status,
mirroring the ServiceError class used by every service function. -/
structure ServiceErr where
  code : ErrCode
  message : String
  status : Nat
deriving DecidableEq, Repr

/-- Lower-cases a character the way the JavaScript built-in toLowerCase does
on the ASCII and Latin-1 letters this repository works with: A-Z and the
accented Latin-1 capitals map down by 32 code points, everything else is
unchanged. -/
def lowerChar (c : Char) : Char :=
  if (65 ≤ c.toNat ∧ c.toNat ≤ 90) ∨ (0xC0 ≤ c.toNat ∧ c.toNat ≤ 0xDE ∧ c.toNat ≠ 0xD7) then
    Char.ofNat (c.toNat + 32)
  else
    c

/-- Lower-cases a string character by character, modelling the JavaScript
toLowerCase calls in the services. -/
def toLowerStr (s : String) : String :=
  String.mk (s.toList.map lowerChar)

/-- Decomposition table modelling the JavaScript built-in normalize with the
NFD form for the lower-case Latin-1 letters reachable after lower-casing;
every character outside the table decomposes to itself. -/
def nfdTable : List (Char × List Char) :=
  [ ('\u00e1', ['a', '\u0301']), ('\u00e0', ['a', '\u0300']), ('\u00e2', ['a', '\u0302']),
    ('\u00e3', ['a', '\u0303']), ('\u00e4', ['a', '\u0308']),
    ('\u00e9', ['e', '\u0301']), ('\u00e8', ['e', '\u0300']), ('\u00ea', ['e', '\u0302']),
    ('\u00eb', ['e', '\u0308']),
    ('\u00ed', ['i', '\u0301']), ('\u00ec', ['i', '\u0300']), ('\u00ee', ['i', '\u0302']),
    ('\u00ef', ['i', '\u0308']),
    ('\u00f3', ['o', '\u0301']), ('\u00f2', ['o', '\u0300']), ('\u00f4', ['o', '\u0302']),
    ('\u00f5', ['o', '\u0303']), ('\u00f6', ['o', '\u0308']),
    ('\u00fa', ['u', '\u0301']), ('\u00f9', ['u', '\u0300']), ('\u00fb', ['u', '\u0302']),
    ('\u00fc', ['u', '\u0308']),
    ('\u00e7', ['c', '\u0327']), ('\u00f1', ['n', '\u0303']) ]

/-- Decomposes one character according to the NFD table. -/
def nfdChar (c : Char) : List Char :=
  match nfdTable.find? (fun p => p.1 == c) with
  | some p => p.2
  | none => [c]

/-- Decomposes a character list, concatenating the per-character
decompositions. -/
def nfdStr (l : List Char) : List Char :=
  l.foldr (fun c acc => nfdChar c ++ acc) []

/-- Tests membership in the Unicode combining-mark block U+0300 to U+036F,
the block removed by the regex replace in generateSlug. -/
def isCombiningMark (c : Char) : Bool :=
  decide (0x300 ≤ c.toNat ∧ c.toNat ≤ 0x36F)

/-- Tests whether a character survives the slug regex, that is whether it is
a lower-case ASCII letter or an ASCII digit. -/
def isAlnumLower (c : Char) : Bool :=
  decide ((97 ≤ c.toNat ∧ c.toNat ≤ 122) ∨ (48 ≤ c.toNat ∧ c.toNat ≤ 57))

/-- Replaces every maximal run of characters outside a-z0-9 by a single
hyphen, modelling the global regex replace in generateSlug; the flag records
whether the previous character belonged to such a run. -/
def collapseAux : Bool → List Char → List Char
  | _, [] => []
  | inRun, c :: rest =>
    if isAlnumLower c then c :: collapseAux false rest
    else if inRun then collapseAux true rest
    else '-' :: collapseAux true rest

/-- Removes leading and trailing hyphens, modelling the final regex replace
in generateSlug. -/
def trimHyphens (l : List Char) : List Char :=
  (((l.dropWhile (fun c => c == '-')).reverse.dropWhile (fun c => c == '-'))).reverse

/-- Generates the URL-friendly slug of a category name: lower-case, NFD
decomposition, removal of combining marks, collapse of every run of
characters outside a-z0-9 to one hyphen, and trimming of edge hyphens.
Direct translation of generateSlug in categoryService. -/
def generateSlug (name : String) : String :=
  String.mk (trimHyphens (collapseAux false
    ((nfdStr (name.toList.map lowerChar)).filter (fun c => !isCombiningMark c))))


/-- Every character produced by the run-collapsing pass is either a slug
alphanumeric or a hyphen. -/
lemma mem_collapseAux (c : Char) :
    ∀ (l : List Char) (b : Bool), c ∈ collapseAux b l →
      isAlnumLower c = true ∨ c = '-' := by
  intro l
  induction l with
  | nil => intro b h; simp [collapseAux] at h
  | cons x rest ih =>
    intro b h
    rw [collapseAux] at h
    by_cases hx : isAlnumLower x
    · rw [if_pos hx] at h
      rcases List.mem_cons.mp h with h1 | h2
      · exact Or.inl (h1 ▸ hx)
      · exact ih false h2
    · rw [if_neg hx] at h
      by_cases hb : b = true
      · rw [if_pos hb] at h
        exact ih true h
      · rw [if_neg hb] at h
        rcases List.mem_cons.mp h with h1 | h2
        · exact Or.inr h1
        · exact ih true h2

/-- In the run-collapsing pass, a call made right after emitting a hyphen
never starts its output with another hyphen. -/
lemma head?_collapseAux_true :
    ∀ (l : List Char) (c : Char), (collapseAux true l).head? = some c →
      isAlnumLower c = true := by
  intro l
  induction l with
  | nil => intro c h; simp [collapseAux] at h
  | cons x rest ih =>
    intro c h
    rw [collapseAux] at h
    by_cases hx : isAlnumLower x
    · rw [if_pos hx] at h
      simp only [List.head?_cons, Option.some.injEq] at h
      exact h ▸ hx
    · rw [if_neg hx, if_pos rfl] at h
      exact ih c h

/-- Output of the run-collapsing pass never contains two adjacent
hyphens. -/
lemma chain'_collapseAux :
    ∀ (l : List Char) (b : Bool),
      List.Chain' (fun a b => ¬(a = '-' ∧ b = '-')) (collapseAux b l) := by
  intro l
  induction l with
  | nil => intro b; simp [collapseAux]
  | cons x rest ih =>
    intro b
    rw [collapseAux]
    by_cases hx : isAlnumLower x
    · rw [if_pos hx]
      rw [List.chain'_cons']
      refine ⟨?_, ih false⟩
      intro y _ hcontra
      rw [hcontra.1] at hx
      exact absurd hx (by decide)
    · rw [if_neg hx]
      by_cases hb : b = true
      · rw [if_pos hb]; exact ih true
      · rw [if_neg hb]
        rw [List.chain'_cons']
        refine ⟨?_, ih true⟩
        intro y hy hcontra
        have hyal := head?_collapseAux_true rest y hy
        rw [hcontra.2] at hyal
        exact absurd hyal (by decide)

/-- Head of a dropWhile result falsifies the dropped predicate. -/
lemma head?_dropWhile_false (p : Char → Bool) :
    ∀ (l : List Char) (c : Char), (l.dropWhile p).head? = some c → p c = false := by
  intro l
  induction l with
  | nil => intro c h; simp [List.dropWhile] at h
  | cons x rest ih =>
    intro c h
    rw [List.dropWhile_cons] at h
    by_cases hx : p x = true
    · rw [if_pos hx] at h; exact ih c h
    · rw [if_neg hx] at h
      simp only [List.head?_cons, Option.some.injEq] at h
      rw [← h]
      exact Bool.eq_false_iff.mpr hx

/-- The hyphen-trimming pass returns a prefix of the leading-trimmed list. -/
lemma trimHyphens_pre (l : List Char) :
    trimHyphens l <+: l.dropWhile (fun c => c == '-') := by
  unfold trimHyphens
  have h2 := List.dropWhile_suffix (l := (l.dropWhile (fun c => c == '-')).reverse)
    (fun c => c == '-')
  have h3 := List.reverse_prefix.mpr h2
  rwa [List.reverse_reverse] at h3

/-- The hyphen-trimming pass returns an infix of its input. -/
lemma trimHyphens_mid (l : List Char) : trimHyphens l <:+: l :=
  (trimHyphens_pre l).isInfix.trans (List.dropWhile_suffix _).isInfix

/-- A nonempty prefix has the same head as the full list. -/
lemma head?_of_prefix {l₁ l₂ : List Char} (h : l₁ <+: l₂) (c : Char)
    (hc : l₁.head? = some c) : l₂.head? = some c := by
  obtain ⟨t, rfl⟩ := h
  cases l₁ with
  | nil => simp at hc
  | cons x xs => simpa using hc

/-- Structural properties of every generated slug: characters restricted to
a-z0-9 and hyphen, no edge hyphen, no adjacent hyphens. -/
lemma slug_props (name : String) :
    (∀ c ∈ (generateSlug name).toList, isAlnumLower c = true ∨ c = '-') ∧
    (generateSlug name).toList.head? ≠ some '-' ∧
    (generateSlug name).toList.getLast? ≠ some '-' ∧
    List.Chain' (fun a b => ¬(a = '-' ∧ b = '-')) (generateSlug name).toList := by
  have htl : (generateSlug name).toList =
      trimHyphens (collapseAux false
        ((nfdStr (name.toList.map lowerChar)).filter (fun c => !isCombiningMark c))) := rfl
  set raw := (nfdStr (name.toList.map lowerChar)).filter (fun c => !isCombiningMark c)
    with hraw
  refine ⟨?_, ?_, ?_, ?_⟩
  · intro c hc
    rw [htl] at hc
    have hmem : c ∈ collapseAux false raw :=
      (trimHyphens_mid (collapseAux false raw)).subset hc
    exact mem_collapseAux c _ false hmem
  · intro hcontra
    rw [htl] at hcontra
    have hh := head?_of_prefix (trimHyphens_pre (collapseAux false raw)) '-' hcontra
    have := head?_dropWhile_false (fun c => c == '-') (collapseAux false raw) '-' hh
    simp at this
  · intro hcontra
    rw [htl] at hcontra
    unfold trimHyphens at hcontra
    rw [List.getLast?_reverse] at hcontra
    have := head?_dropWhile_false (fun c => c == '-') _ '-' hcontra
    simp at this
  · rw [htl]
    exact List.Chain'.infix (chain'_collapseAux raw false) (trimHyphens_mid _)

/-- Claim C1 is handled below; this is claim C7: generateSlug is a pure
function whose result, for every input string, contains only characters from
a-z0-9 and hyphen, never starts or ends with a hyphen, and never contains two
consecutive hyphens; and generateSlug of the string Sala & Estar!! equals
sala-estar. -/
theorem claim_C7 (name : String) :
    ((generateSlug name).toList.all (fun c => isAlnumLower c || c == '-')) = true ∧
    ((generateSlug name).toList.head? == some '-') = false ∧
    ((generateSlug name).toList.getLast? == some '-') = false ∧
    decide (List.Chain' (fun a b => ¬(a = '-' ∧ b = '-')) (generateSlug name).toList)
      = true ∧
    generateSlug "Sala & Estar!!" = "sala-estar" := by
  obtain ⟨hm, hh, hl, hc⟩ := slug_props name
  refine ⟨?_, ?_, ?_, decide_eq_true hc, by decide⟩
  · rw [List.all_eq_true]
    intro c hcmem
    rcases hm c hcmem with h | h
    · simp [h]
    · simp [h]
  · exact beq_eq_false_iff_ne.mpr hh
  · exact beq_eq_false_iff_ne.mpr hl

/-- Lower-casing is the identity on slug characters. -/
lemma lowerChar_id_of_slug {c : Char} (h : isAlnumLower c = true ∨ c = '-') :
    lowerChar c = c := by
  rcases h with h | h
  · have h' := of_decide_eq_true h
    unfold lowerChar
    rw [if_neg]
    omega
  · subst h; decide

/-- Slug characters are below every key in the NFD table. -/
lemma slugChar_toNat_le {c : Char} (h : isAlnumLower c = true ∨ c = '-') :
    c.toNat ≤ 122 := by
  rcases h with h | h
  · have h' := of_decide_eq_true h
    omega
  · subst h; decide

/-- NFD decomposition is the identity on slug characters. -/
lemma nfdChar_id_of_slug {c : Char} (h : isAlnumLower c = true ∨ c = '-') :
    nfdChar c = [c] := by
  have hcb : c.toNat ≤ 122 := slugChar_toNat_le h
  have hnone : nfdTable.find? (fun p => p.1 == c) = none := by
    rw [List.find?_eq_none]
    intro x hx
    have hkey : 224 ≤ x.1.toNat := by
      have hall : ∀ y ∈ nfdTable, 224 ≤ y.1.toNat := by decide
      exact hall x hx
    intro hbeq
    have hxc : x.1 = c := by simpa using hbeq
    rw [hxc] at hkey
    omega
  unfold nfdChar
  rw [hnone]

/-- NFD decomposition of a list of slug characters is the identity. -/
lemma nfdStr_id_of_slug {l : List Char}
    (h : ∀ c ∈ l, isAlnumLower c = true ∨ c = '-') : nfdStr l = l := by
  induction l with
  | nil => rfl
  | cons x rest ih =>
    have hx := h x (List.mem_cons_self x rest)
    have hrest := fun c hc => h c (List.mem_cons_of_mem x hc)
    show nfdChar x ++ nfdStr rest = x :: rest
    rw [nfdChar_id_of_slug hx, ih hrest]
    rfl

/-- Combining-mark removal is the identity on slug characters. -/
lemma filter_comb_id_of_slug {l : List Char}
    (h : ∀ c ∈ l, isAlnumLower c = true ∨ c = '-') :
    l.filter (fun c => !isCombiningMark c) = l := by
  rw [List.filter_eq_self]
  intro c hc
  have hcb := slugChar_toNat_le (h c hc)
  simp [isCombiningMark]
  omega

/-- Run collapsing is the identity on a list that already has the slug
shape: only slug characters, no adjacent hyphens, no trailing hyphen; the
second conjunct strengthens the induction for the state entered right after
emitting a hyphen. -/
lemma collapseAux_id_of_slug :
    ∀ (l : List Char), (∀ c ∈ l, isAlnumLower c = true ∨ c = '-') →
      List.Chain' (fun a b => ¬(a = '-' ∧ b = '-')) l →
      l.getLast? ≠ some '-' →
      collapseAux false l = l ∧ (l.head? ≠ some '-' → collapseAux true l = l) := by
  intro l
  induction l with
  | nil => intro _ _ _; exact ⟨rfl, fun _ => rfl⟩
  | cons x rest ih =>
    intro hmem hchain hlast
    have hrestmem : ∀ c ∈ rest, isAlnumLower c = true ∨ c = '-' :=
      fun c hc => hmem c (List.mem_cons_of_mem x hc)
    have hrestchain : List.Chain' (fun a b => ¬(a = '-' ∧ b = '-')) rest :=
      hchain.tail
    by_cases hx : isAlnumLower x
    · have hrestlast : rest.getLast? ≠ some '-' := by
        cases rest with
        | nil => simp
        | cons y ys =>
          rw [List.getLast?_cons] at hlast
          cases hy : (y :: ys).getLast? with
          | none => simp at hy
          | some z => rw [hy] at hlast; simpa using hlast
      have hrec := (ih hrestmem hrestchain hrestlast).1
      constructor
      · rw [collapseAux, if_pos hx, hrec]
      · intro _
        rw [collapseAux, if_pos hx, hrec]
    · have hx' : x = '-' := by
        rcases hmem x (List.mem_cons_self x rest) with h | h
        · exact absurd h hx
        · exact h
      subst hx'
      have hxfalse : isAlnumLower '-' = false := by decide
      constructor
      · rw [collapseAux, if_neg hx, if_neg (by simp)]
        congr 1
        cases rest with
        | nil =>
          exact absurd (by simp) hlast
        | cons y ys =>
          have hyne : y ≠ '-' := by
            have := List.chain'_cons'.mp hchain
            have hrel := this.1 y (by simp)
            intro hy
            exact hrel ⟨rfl, hy⟩
          have hrestlast : (y :: ys).getLast? ≠ some '-' := by
            rw [List.getLast?_cons] at hlast
            cases hy : (y :: ys).getLast? with
            | none => simp at hy
            | some z => rw [hy] at hlast; simpa using hlast
          exact (ih hrestmem hrestchain hrestlast).2 (by simpa using hyne)
      · intro hhead
        exact absurd (by simp) hhead

/-- Hyphen trimming is the identity on a list with no edge hyphens. -/
lemma trimHyphens_id_of_slug {l : List Char} (hh : l.head? ≠ some '-')
    (hl : l.getLast? ≠ some '-') : trimHyphens l = l := by
  unfold trimHyphens
  have h1 : l.dropWhile (fun c => c == '-') = l := by
    cases l with
    | nil => rfl
    | cons x rest =>
      rw [List.dropWhile_cons, if_neg]
      simp only [List.head?_cons] at hh
      simpa using fun hx => hh (by rw [hx])
  rw [h1]
  have h2 : l.reverse.dropWhile (fun c => c == '-') = l.reverse := by
    cases hrev : l.reverse with
    | nil => rfl
    | cons x rest =>
      rw [List.dropWhile_cons, if_neg]
      have hx : l.getLast? = some x := by
        rw [← List.head?_reverse, hrev, List.head?_cons]
      simpa using fun hxeq => hl (by rw [hx, hxeq])
  rw [h2, List.reverse_reverse]

/-- Applying generateSlug to a string that already has the slug shape
returns it unchanged. -/
lemma generateSlug_eq_self {s : String}
    (hm : ∀ c ∈ s.toList, isAlnumLower c = true ∨ c = '-')
    (hh : s.toList.head? ≠ some '-')
    (hl : s.toList.getLast? ≠ some '-')
    (hc : List.Chain' (fun a b => ¬(a = '-' ∧ b = '-')) s.toList) :
    generateSlug s = s := by
  unfold generateSlug
  have hmap : s.toList.map lowerChar = s.toList := by
    have := List.map_congr_left (fun c hcm => lowerChar_id_of_slug (hm c hcm))
    rw [this]
    simp
  rw [hmap, nfdStr_id_of_slug hm, filter_comb_id_of_slug hm,
    (collapseAux_id_of_slug s.toList hm hc hl).1, trimHyphens_id_of_slug hh hl]
  cases s
  rfl

/-- generateSlug is idempotent: its output is a fixed point of every stage
of the pipeline. -/
lemma generateSlug_idem (name : String) :
    generateSlug (generateSlug name) = generateSlug name := by
  obtain ⟨hm, hh, hl, hc⟩ := slug_props name
  exact generateSlug_eq_self hm hh hl hc

/-- Claim C8 counterexample: the claim asserts the existence of a string on
which generateSlug is not idempotent; no such string exists. -/
theorem claim_C8_counterexample :
    ¬ ∃ N : String, generateSlug (generateSlug N) ≠ generateSlug N := by
  rintro ⟨N, hN⟩
  exact hN (generateSlug_idem N)

/-- Claim C8 amended: generateSlug is idempotent on every input string,
because its output is already lower-case alphanumeric with single interior
hyphens, which every stage of the pipeline maps to itself. -/
theorem claim_C8 (N : String) :
    generateSlug (generateSlug N) = generateSlug N :=
  generateSlug_idem N

/-- Maximum category hierarchy depth, from CATEGORY_DEFAULTS. -/
def MAX_HIERARCHY_LEVEL : Nat := 3

/-- Maximum number of category records in the raw store, from
CATEGORY_DEFAULTS. -/
def MAX_RECORDS : Nat := 1000

/-- Category record as stored by the in-memory category store. -/
structure CategoryRecord where
  id : Nat
  name : String
  slug : String
  parentId : Option Nat
  level : Nat
  description : Option String
  imageUrl : Option String
  displayOrder : Nat
  active : Bool
  featured : Bool
  metaTitle : Option String
  metaDescription : Option String
  productCount : Nat
  dateCreated : String
  dateModified : String
deriving DecidableEq, Repr

/-- Lookup of a category record by id, modelling the get call on the
record map; the list holds the map entries in insertion order and ids are
the map keys. -/
def getById (records : List CategoryRecord) (id : Nat) : Option CategoryRecord :=
  records.find? (fun c => c.id == id)

/-- One step up the parent chain: the parentId of the record with the given
id, or none when the id is absent or the record is a root. -/
def stepParent (records : List CategoryRecord) (x : Nat) : Option Nat :=
  (getById records x).bind (fun c => c.parentId)

/-- Position k of the deterministic ancestor chain that starts at a given
id and repeatedly follows parentId; none once the chain has ended. -/
def chainSeq (records : List CategoryRecord) (start : Nat) : Nat → Option Nat
  | 0 => some start
  | k + 1 => (chainSeq records start k).bind (stepParent records)

/-- Ids still unvisited by the cycle-detection walk, the decreasing measure
of its recursion. -/
def unvisitedCount (records : List CategoryRecord) (visited : List Nat) : Nat :=
  ((records.map (fun c => c.id)).filter (fun i => decide (i ∉ visited))).length

/-- Removing one present, previously counted id strictly shrinks the
unvisited count. -/
lemma unvisitedCount_lt (records : List CategoryRecord) (visited : List Nat)
    (a : Nat) (hmem : a ∈ records.map (fun c => c.id)) (hnv : a ∉ visited) :
    unvisitedCount records (a :: visited) < unvisitedCount records visited := by
  unfold unvisitedCount
  induction records with
  | nil => simp at hmem
  | cons r rest ih =>
    rw [List.map_cons] at hmem ⊢
    rw [List.filter_cons, List.filter_cons]
    rcases List.mem_cons.mp hmem with h1 | h2
    · subst h1
      rw [if_neg (fun hC => absurd (List.mem_cons_self r.id visited)
            (of_decide_eq_true hC)),
        if_pos (decide_eq_true hnv)]
      have hle : ((rest.map (fun c => c.id)).filter
            (fun i => decide (i ∉ r.id :: visited))).length ≤
          ((rest.map (fun c => c.id)).filter (fun i => decide (i ∉ visited))).length := by
        apply List.Sublist.length_le
        apply List.monotone_filter_right
        intro x hx
        simp only [decide_eq_true_eq] at hx ⊢
        exact fun hc => hx (List.mem_cons_of_mem _ hc)
      simp only [List.length_cons]
      omega
    · have hlt := ih h2
      by_cases hr : r.id ∈ a :: visited
      · rw [if_neg (fun hC => absurd hr (of_decide_eq_true hC))]
        by_cases hr2 : r.id ∈ visited
        · rw [if_neg (fun hC => absurd hr2 (of_decide_eq_true hC))]
          exact hlt
        · rw [if_pos (decide_eq_true hr2)]
          simp only [List.length_cons]
          omega
      · have hr2 : r.id ∉ visited := fun hc => hr (List.mem_cons_of_mem _ hc)
        rw [if_pos (decide_eq_true hr), if_pos (decide_eq_true hr2)]
        simp only [List.length_cons]
        omega

/-- The ancestor walk of validateNoCycle: checks the visited set, checks for
the category id, then follows parentId; terminates at a root or a missing
parent. Direct translation of the while loop in validateNoCycle. -/
def noCycleWalk (records : List CategoryRecord) (categoryId : Nat)
    (current : Nat) (visited : List Nat) : Except ServiceErr Unit :=
  if hv : current ∈ visited then
    .error ⟨.BUSINESS_RULE_ERROR, "Circular reference detected", 400⟩
  else if current = categoryId then
    .error ⟨.BUSINESS_RULE_ERROR, "Cannot create circular category hierarchy", 400⟩
  else
    match hfind : getById records current with
    | none => .ok ()
    | some parent =>
      match parent.parentId with
      | none => .ok ()
      | some p => noCycleWalk records categoryId p (current :: visited)
termination_by unvisitedCount records visited
decreasing_by
  apply unvisitedCount_lt
  · have hmem := List.mem_of_find?_eq_some hfind
    have hid : parent.id = current := by
      have := List.find?_some hfind
      simpa using this
    exact List.mem_map.mpr ⟨parent, hmem, hid⟩
  · exact hv

/-- Validates that setting parentId on a category creates no cycle: rejects
the id itself immediately, then walks the ancestor chain from the new
parent. Direct translation of validateNoCycle in categoryService. -/
def validateNoCycle (records : List CategoryRecord) (categoryId : Nat)
    (parentId : Option Nat) : Except ServiceErr Unit :=
  match parentId with
  | none => .ok ()
  | some p =>
    if p = categoryId then
      .error ⟨.BUSINESS_RULE_ERROR, "A category cannot be its own parent", 400⟩
    else
      noCycleWalk records categoryId p []

/-- The chain at a later position factors through the chain at an earlier
position. -/
lemma chainSeq_add (records : List CategoryRecord) (start : Nat) (i : Nat) :
    ∀ m, chainSeq records start (i + m) =
      (chainSeq records start i).bind (fun x => chainSeq records x m) := by
  intro m
  induction m with
  | zero =>
    show chainSeq records start i =
      (chainSeq records start i).bind (fun x => chainSeq records x 0)
    cases h : chainSeq records start i with
    | none => rfl
    | some x => rfl
  | succ m ih =>
    have : i + (m + 1) = (i + m) + 1 := by omega
    rw [this]
    show (chainSeq records start (i + m)).bind (stepParent records) = _
    rw [ih]
    cases h : chainSeq records start i with
    | none => rfl
    | some x => rfl

/-- Peeling one step off the front of the chain. -/
lemma chainSeq_succ_front (records : List CategoryRecord) (start : Nat) (k : Nat) :
    chainSeq records start (k + 1) =
      (stepParent records start).bind (fun y => chainSeq records y k) := by
  have h := chainSeq_add records start 1 k
  have h1 : 1 + k = k + 1 := by omega
  rw [h1] at h
  rw [h]
  show (stepParent records start).bind _ = _
  rfl

/-- Once the chain has ended it stays ended. -/
lemma chainSeq_none_mono (records : List CategoryRecord) (start : Nat) {i j : Nat}
    (hij : i ≤ j) (h : chainSeq records start i = none) :
    chainSeq records start j = none := by
  obtain ⟨m, rfl⟩ := Nat.le.dest hij
  rw [chainSeq_add records start i m, h]
  rfl

/-- A chain that reaches a terminator never repeats a value: a repeat would
make the chain periodic, contradicting its end. -/
lemma chainSeq_inj (records : List CategoryRecord) (start : Nat)
    (hterm : ∃ t x, chainSeq records start t = some x ∧ stepParent records x = none)
    {i j a : Nat} (hij : i < j) (hi : chainSeq records start i = some a) :
    chainSeq records start j ≠ some a := by
  intro hj
  obtain ⟨t, y, ht, hy⟩ := hterm
  have hnone : chainSeq records start (t + 1) = none := by
    show (chainSeq records start t).bind (stepParent records) = none
    rw [ht]
    simpa using hy
  have hit : i ≤ t := by
    by_contra hgt
    have : chainSeq records start i = none :=
      chainSeq_none_mono records start (by omega) hnone
    rw [this] at hi
    exact Option.noConfusion hi
  have hshift : ∀ m, chainSeq records start (i + m) = chainSeq records start (j + m) := by
    intro m
    rw [chainSeq_add records start i m, chainSeq_add records start j m, hi, hj]
  have hm := hshift (t - i)
  have heq1 : i + (t - i) = t := by omega
  rw [heq1, ht] at hm
  have hjm : t + 1 ≤ j + (t - i) := by omega
  have : chainSeq records start (j + (t - i)) = none :=
    chainSeq_none_mono records start hjm hnone
  rw [this] at hm
  exact Option.noConfusion hm

/-- Soundness of the ok result of the walk: when it returns without error,
the chain from the current node never meets the category id and ends at a
root or a missing parent. -/
lemma noCycleWalk_ok_to (records : List CategoryRecord) (categoryId : Nat) :
    ∀ current visited, noCycleWalk records categoryId current visited = .ok () →
      (∀ k, chainSeq records current k ≠ some categoryId) ∧
      (∃ t x, chainSeq records current t = some x ∧ stepParent records x = none) := by
  intro current visited
  induction current, visited using noCycleWalk.induct records categoryId with
  | case1 current visited hv =>
    intro h
    rw [noCycleWalk.eq_def] at h
    rw [dif_pos hv] at h
    exact Except.noConfusion h
  | case2 visited hv =>
    intro h
    rw [noCycleWalk.eq_def] at h
    rw [dif_neg hv, if_pos rfl] at h
    exact Except.noConfusion h
  | case3 current visited hv hne hfind =>
    intro _
    have hstep : stepParent records current = none := by
      unfold stepParent
      rw [hfind]
      rfl
    constructor
    · intro k
      match k with
      | 0 =>
        intro hc
        have hcs : (some current : Option Nat) = some categoryId := hc
        exact hne (Option.some.inj hcs)
      | k + 1 =>
        rw [chainSeq_succ_front, hstep]
        exact fun hc => Option.noConfusion hc
    · exact ⟨0, current, rfl, hstep⟩
  | case4 current visited hv hne parent hfind hpar =>
    intro _
    have hstep : stepParent records current = none := by
      unfold stepParent
      rw [hfind]
      simpa using hpar
    constructor
    · intro k
      match k with
      | 0 =>
        intro hc
        have hcs : (some current : Option Nat) = some categoryId := hc
        exact hne (Option.some.inj hcs)
      | k + 1 =>
        rw [chainSeq_succ_front, hstep]
        exact fun hc => Option.noConfusion hc
    · exact ⟨0, current, rfl, hstep⟩
  | case5 current visited hv hne parent hfind p hp ih =>
    intro h
    have hstep : stepParent records current = some p := by
      unfold stepParent
      rw [hfind]
      simpa using hp
    rw [noCycleWalk.eq_def] at h
    rw [dif_neg hv, if_neg hne, hfind] at h
    have h2 : (match parent.parentId with
        | none => Except.ok ()
        | some q => noCycleWalk records categoryId q (current :: visited)) =
        (Except.ok () : Except ServiceErr Unit) := h
    rw [hp] at h2
    have hprops := ih h2
    constructor
    · intro k
      match k with
      | 0 =>
        intro hc
        have hcs : (some current : Option Nat) = some categoryId := hc
        exact hne (Option.some.inj hcs)
      | k + 1 =>
        rw [chainSeq_succ_front, hstep]
        exact hprops.1 k
    · obtain ⟨t, x, ht, hx⟩ := hprops.2
      refine ⟨t + 1, x, ?_, hx⟩
      rw [chainSeq_succ_front, hstep]
      exact ht

/-- Completeness of the ok result of the walk: when the chain from the
current node avoids the category id, ends at a root or missing parent, and
shares no node with the visited set, the walk returns without error. -/
lemma noCycleWalk_ok_of (records : List CategoryRecord) (categoryId : Nat) :
    ∀ current visited,
      (∀ k, chainSeq records current k ≠ some categoryId) →
      (∃ t x, chainSeq records current t = some x ∧ stepParent records x = none) →
      (∀ a ∈ visited, ∀ k, chainSeq records current k ≠ some a) →
      noCycleWalk records categoryId current visited = .ok () := by
  intro current visited
  induction current, visited using noCycleWalk.induct records categoryId with
  | case1 current visited hv =>
    intro _ _ hvis
    exact absurd rfl (hvis current hv 0)
  | case2 visited hv =>
    intro hc _ _
    exact absurd rfl (hc 0)
  | case3 current visited hv hne hfind =>
    intro _ _ _
    rw [noCycleWalk.eq_def, dif_neg hv, if_neg hne, hfind]
  | case4 current visited hv hne parent hfind hpar =>
    intro _ _ _
    rw [noCycleWalk.eq_def, dif_neg hv, if_neg hne, hfind]
    show (match parent.parentId with
      | none => Except.ok ()
      | some q => noCycleWalk records categoryId q (current :: visited)) =
      (Except.ok () : Except ServiceErr Unit)
    rw [hpar]
  | case5 current visited hv hne parent hfind p hp ih =>
    intro hc hterm hvis
    have hstep : stepParent records current = some p := by
      unfold stepParent
      rw [hfind]
      simpa using hp
    rw [noCycleWalk.eq_def, dif_neg hv, if_neg hne, hfind]
    show (match parent.parentId with
      | none => Except.ok ()
      | some q => noCycleWalk records categoryId q (current :: visited)) =
      (Except.ok () : Except ServiceErr Unit)
    rw [hp]
    apply ih
    · intro k
      have hck := hc (k + 1)
      rw [chainSeq_succ_front, hstep] at hck
      exact hck
    · obtain ⟨t, x, ht, hx⟩ := hterm
      match t, ht with
      | 0, ht =>
        have hxc : (some current : Option Nat) = some x := ht
        have hxc2 : x = current := (Option.some.inj hxc).symm
        rw [hxc2, hstep] at hx
        exact Option.noConfusion hx
      | t + 1, ht =>
        rw [chainSeq_succ_front, hstep] at ht
        exact ⟨t, x, ht, hx⟩
    · intro a ha k
      rcases List.mem_cons.mp ha with h1 | h2
      · have h0 : chainSeq records current 0 = some current := rfl
        have hinj : chainSeq records current (k + 1) ≠ some current :=
          chainSeq_inj records current hterm (by omega) h0
        rw [chainSeq_succ_front, hstep] at hinj
        rw [h1]
        exact hinj
      · have hva := hvis a h2 (k + 1)
        rw [chainSeq_succ_front, hstep] at hva
        exact hva

/-- Every error raised inside the walk carries the business-rule code. -/
lemma noCycleWalk_error_code (records : List CategoryRecord) (categoryId : Nat) :
    ∀ current visited e,
      noCycleWalk records categoryId current visited = .error e →
      e.code = .BUSINESS_RULE_ERROR := by
  intro current visited
  induction current, visited using noCycleWalk.induct records categoryId with
  | case1 current visited hv =>
    intro e h
    rw [noCycleWalk.eq_def, dif_pos hv] at h
    have he := Except.error.inj h
    rw [← he]
  | case2 visited hv =>
    intro e h
    rw [noCycleWalk.eq_def, dif_neg hv, if_pos rfl] at h
    have he := Except.error.inj h
    rw [← he]
  | case3 current visited hv hne hfind =>
    intro e h
    rw [noCycleWalk.eq_def, dif_neg hv, if_neg hne, hfind] at h
    exact Except.noConfusion h
  | case4 current visited hv hne parent hfind hpar =>
    intro e h
    rw [noCycleWalk.eq_def, dif_neg hv, if_neg hne, hfind] at h
    have h2 : (match parent.parentId with
        | none => Except.ok ()
        | some q => noCycleWalk records categoryId q (current :: visited)) =
        (Except.error e : Except ServiceErr Unit) := h
    rw [hpar] at h2
    exact Except.noConfusion h2
  | case5 current visited hv hne parent hfind p hp ih =>
    intro e h
    rw [noCycleWalk.eq_def, dif_neg hv, if_neg hne, hfind] at h
    have h2 : (match parent.parentId with
        | none => Except.ok ()
        | some q => noCycleWalk records categoryId q (current :: visited)) =
        (Except.error e : Except ServiceErr Unit) := h
    rw [hp] at h2
    exact ih e h2

/-- Unfolding equation for validateNoCycle at a non-null parent. -/
lemma validateNoCycle_some (records : List CategoryRecord) (categoryId p : Nat) :
    validateNoCycle records categoryId (some p) =
      if p = categoryId then
        .error ⟨.BUSINESS_RULE_ERROR, "A category cannot be its own parent", 400⟩
      else noCycleWalk records categoryId p [] := rfl

/-- Claim C1: for every category-store state, validateNoCycle accepts a null
new parent; for a non-null new parent it succeeds exactly when the new
parent differs from the category, the ancestor chain from the new parent
never meets the category id, and that chain ends at a root or a missing
parent (so it never revisits a node); and every error it raises carries
BUSINESS_RULE_ERROR. It inspects the store without changing any record. -/
theorem claim_C1 (records : List CategoryRecord) (categoryId : Nat) :
    validateNoCycle records categoryId none = .ok () ∧
    (∀ p, validateNoCycle records categoryId (some p) = .ok () ↔
      (p ≠ categoryId ∧ (∀ k, chainSeq records p k ≠ some categoryId) ∧
        (∃ t x, chainSeq records p t = some x ∧ stepParent records x = none))) ∧
    (∀ pid e, validateNoCycle records categoryId pid = .error e →
      e.code = .BUSINESS_RULE_ERROR) := by
  refine ⟨rfl, ?_, ?_⟩
  · intro p
    constructor
    · intro h
      rw [validateNoCycle_some] at h
      by_cases hp : p = categoryId
      · rw [if_pos hp] at h
        exact Except.noConfusion h
      · rw [if_neg hp] at h
        have hprops := noCycleWalk_ok_to records categoryId p [] h
        exact ⟨hp, hprops.1, hprops.2⟩
    · rintro ⟨hp, hc, hterm⟩
      rw [validateNoCycle_some, if_neg hp]
      refine noCycleWalk_ok_of records categoryId p [] hc hterm ?_
      intro a ha
      exact absurd ha (List.not_mem_nil a)
  · intro pid e h
    match pid with
    | none => exact Except.noConfusion h
    | some p =>
      rw [validateNoCycle_some] at h
      by_cases hp : p = categoryId
      · rw [if_pos hp] at h
        have he := Except.error.inj h
        rw [← he]
      · rw [if_neg hp] at h
        exact noCycleWalk_error_code records categoryId p [] e h

/-- Builds a minimal category record for concrete witness stores. -/
def mkCatRecord (id : Nat) (parentId : Option Nat) (level : Nat) : CategoryRecord :=
  { id := id, name := "c", slug := "c", parentId := parentId, level := level,
    description := none, imageUrl := none, displayOrder := 0, active := true,
    featured := false, metaTitle := none, metaDescription := none,
    productCount := 0, dateCreated := "", dateModified := "" }

/-- Concrete two-record store with record 2 a child of root record 1. -/
def c1recs : List CategoryRecord :=
  [mkCatRecord 1 none 1, mkCatRecord 2 (some 1) 2]

/-- Witness for claim C1: on the concrete two-record store, reparenting
category 99 under category 2 passes the cycle check, via the theorem with
its chain conditions discharged concretely. -/
theorem claim_C1_witness : validateNoCycle c1recs 99 (some 2) = .ok () := by
  refine ((claim_C1 c1recs 99).2.1 2).mpr ⟨by decide, ?_, ⟨1, 1, by decide, by decide⟩⟩
  intro k
  match k with
  | 0 => decide
  | 1 => decide
  | (k + 2) =>
    have h2 : chainSeq c1recs 2 2 = none := by decide
    have hnone : chainSeq c1recs 2 (k + 2) = none :=
      chainSeq_none_mono c1recs 2 (by omega) h2
    rw [hnone]
    exact fun hc => Option.noConfusion hc

/-- Computes the level of a category from its parent: 1 for a root,
parent level plus one otherwise, rejecting a missing parent and a depth
beyond the maximum. Direct translation of calculateLevel. -/
def calculateLevel (records : List CategoryRecord) (parentId : Option Nat) :
    Except ServiceErr Nat :=
  match parentId with
  | none => .ok 1
  | some pid =>
    match getById records pid with
    | none => .error ⟨.VALIDATION_ERROR, "Parent category does not exist", 400⟩
    | some parent =>
      if parent.level + 1 > MAX_HIERARCHY_LEVEL then
        .error ⟨.BUSINESS_RULE_ERROR,
          "Cannot create more than 3 levels of categories", 400⟩
      else
        .ok (parent.level + 1)

/-- Unfolding equation for calculateLevel at a non-null parent. -/
lemma calculateLevel_some (records : List CategoryRecord) (pid : Nat) :
    calculateLevel records (some pid) =
      match getById records pid with
      | none => .error ⟨.VALIDATION_ERROR, "Parent category does not exist", 400⟩
      | some parent =>
        if parent.level + 1 > MAX_HIERARCHY_LEVEL then
          .error ⟨.BUSINESS_RULE_ERROR,
            "Cannot create more than 3 levels of categories", 400⟩
        else
          .ok (parent.level + 1) := rfl

/-- Rejects a name already used, case-insensitively, by another category
with the same parent. Direct translation of validateUniqueNameAtLevel; the
exclusion argument models the optional excludeId parameter. -/
def validateUniqueNameAtLevel (records : List CategoryRecord) (name : String)
    (parentId : Option Nat) (excludeId : Option Nat) : Except ServiceErr Unit :=
  match records.find? (fun c =>
      toLowerStr c.name == toLowerStr name && c.parentId == parentId &&
        some c.id != excludeId) with
  | some _ =>
    .error ⟨.BUSINESS_RULE_ERROR,
      "A category with this name already exists at this level", 400⟩
  | none => .ok ()

/-- Rejects a slug already used by another category. Direct translation of
validateUniqueSlug. -/
def validateUniqueSlug (records : List CategoryRecord) (slug : String)
    (excludeId : Option Nat) : Except ServiceErr Unit :=
  match records.find? (fun c => c.slug == slug && some c.id != excludeId) with
  | some _ =>
    .error ⟨.BUSINESS_RULE_ERROR, "A category with this slug already exists", 400⟩
  | none => .ok ()

/-- The in-memory category store: the record map in insertion order, the
secondary slug index, and the id counter. -/
structure CategoryStore where
  records : List CategoryRecord
  slugIndex : List (String × Nat)
  currentId : Nat
deriving DecidableEq, Repr

/-- Map lookup on the slug index. -/
def lookupAssoc (l : List (String × Nat)) (k : String) : Option Nat :=
  (l.find? (fun p => p.1 == k)).map (fun p => p.2)

/-- Map set on the slug index: replaces the entry in place when the key is
present, appends otherwise, as a JavaScript Map does. -/
def setAssoc (l : List (String × Nat)) (k : String) (v : Nat) :
    List (String × Nat) :=
  if l.any (fun p => p.1 == k) then
    l.map (fun p => if p.1 == k then (k, v) else p)
  else
    l ++ [(k, v)]

/-- Map delete on the slug index. -/
def delAssoc (l : List (String × Nat)) (k : String) : List (String × Nat) :=
  l.filter (fun p => p.1 != k)

/-- Map set on the record map, keyed by record id. -/
def setRecordList (records : List CategoryRecord) (r : CategoryRecord) :
    List CategoryRecord :=
  if records.any (fun c => c.id == r.id) then
    records.map (fun c => if c.id == r.id then r else c)
  else
    records ++ [r]

/-- Lookup by slug through the slug index, then by the indexed id. Direct
translation of getBySlug in the category store. -/
def getBySlug (s : CategoryStore) (slug : String) : Option CategoryRecord :=
  match lookupAssoc s.slugIndex slug with
  | none => none
  | some id => getById s.records id

/-- Adds a record to the store, enforcing the raw record limit and indexing
the slug. Direct translation of add in the category store. -/
def storeAdd (s : CategoryStore) (r : CategoryRecord) :
    Except ServiceErr CategoryStore :=
  if s.records.length ≥ MAX_RECORDS then
    .error ⟨.INTERNAL, "Maximum records limit reached", 500⟩
  else
    .ok { s with records := setRecordList s.records r,
                 slugIndex := setAssoc s.slugIndex r.slug r.id }

/-- Partial record update passed to the raw store update; an absent field
keeps the stored value. -/
structure CategoryPatch where
  name : Option String := none
  slug : Option String := none
  parentId : Option (Option Nat) := none
  level : Option Nat := none
  description : Option (Option String) := none
  imageUrl : Option (Option String) := none
  displayOrder : Option Nat := none
  active : Option Bool := none
  featured : Option Bool := none
  metaTitle : Option (Option String) := none
  metaDescription : Option (Option String) := none
  productCount : Option Nat := none
  dateModified : Option String := none
deriving DecidableEq, Repr

/-- Spread of a patch over an existing record. -/
def applyPatch (c : CategoryRecord) (d : CategoryPatch) : CategoryRecord :=
  { c with
    name := d.name.getD c.name,
    slug := d.slug.getD c.slug,
    parentId := d.parentId.getD c.parentId,
    level := d.level.getD c.level,
    description := d.description.getD c.description,
    imageUrl := d.imageUrl.getD c.imageUrl,
    displayOrder := d.displayOrder.getD c.displayOrder,
    active := d.active.getD c.active,
    featured := d.featured.getD c.featured,
    metaTitle := d.metaTitle.getD c.metaTitle,
    metaDescription := d.metaDescription.getD c.metaDescription,
    productCount := d.productCount.getD c.productCount,
    dateModified := d.dateModified.getD c.dateModified }

/-- The slug field of a patch when it is truthy in the JavaScript sense:
present and nonempty; an empty string is falsy there. -/
def patchSlugTruthy (d : CategoryPatch) : Option String :=
  match d.slug with
  | some s => if s = "" then none else some s
  | none => none

/-- Updates a record in the store: reindexes the slug only when the patch
slug is truthy and differs from the stored one, then merges the patch over
the record. Direct translation of update in the category store, including
its truthiness guard on the slug. -/
def storeUpdate (s : CategoryStore) (id : Nat) (d : CategoryPatch) :
    Option CategoryRecord × CategoryStore :=
  match getById s.records id with
  | none => (none, s)
  | some existing =>
    let slugIndex1 :=
      match patchSlugTruthy d with
      | some newSlug =>
        if newSlug ≠ existing.slug then
          setAssoc (delAssoc s.slugIndex existing.slug) newSlug id
        else s.slugIndex
      | none => s.slugIndex
    let updated := applyPatch existing d
    (some updated,
      { s with records := setRecordList s.records updated, slugIndex := slugIndex1 })

/-- Deletes a record and its slug-index entry. Direct translation of delete
in the category store. -/
def storeDelete (s : CategoryStore) (id : Nat) : CategoryStore :=
  match getById s.records id with
  | none => { s with records := s.records.filter (fun c => c.id != id) }
  | some existing =>
    { s with records := s.records.filter (fun c => c.id != id),
             slugIndex := delAssoc s.slugIndex existing.slug }

/-- Body of a category create request after schema validation: displayOrder,
active and featured are optional in the create schema, the nullable fields
are present but possibly null. -/
structure CreateInput where
  name : String
  parentId : Option Nat
  description : Option String
  imageUrl : Option String
  displayOrder : Option Nat
  active : Option Bool
  featured : Option Bool
  metaTitle : Option String
  metaDescription : Option String
deriving DecidableEq, Repr

/-- Creates a category: checks name uniqueness at the level, derives and
checks the slug, computes the level, then takes a fresh id and adds the
record with its defaults. Direct translation of categoryCreate; the pair
carries the result and the post-call store. -/
def categoryCreate (s : CategoryStore) (params : CreateInput) (now : String) :
    Except ServiceErr CategoryRecord × CategoryStore :=
  match validateUniqueNameAtLevel s.records params.name params.parentId none with
  | .error e => (.error e, s)
  | .ok () =>
    match validateUniqueSlug s.records (generateSlug params.name) none with
    | .error e => (.error e, s)
    | .ok () =>
      match calculateLevel s.records params.parentId with
      | .error e => (.error e, s)
      | .ok level =>
        let id := s.currentId + 1
        let s1 := { s with currentId := id }
        let newCategory : CategoryRecord :=
          { id := id, name := params.name, slug := generateSlug params.name,
            parentId := params.parentId, level := level,
            description := params.description, imageUrl := params.imageUrl,
            displayOrder := params.displayOrder.getD 0,
            active := params.active.getD true,
            featured := params.featured.getD false,
            metaTitle := params.metaTitle,
            metaDescription := params.metaDescription, productCount := 0,
            dateCreated := now, dateModified := now }
        match storeAdd s1 newCategory with
        | .error e => (.error e, s1)
        | .ok s2 => (.ok newCategory, s2)

/-- Decidable equality for Except results, used to evaluate service calls
on concrete stores. -/
instance {e a : Type} [DecidableEq e] [DecidableEq a] : DecidableEq (Except e a)
  | .error x, .error y =>
    if h : x = y then .isTrue (by rw [h])
    else .isFalse (fun hc => h (Except.error.inj hc))
  | .error _, .ok _ => .isFalse (fun hc => Except.noConfusion hc)
  | .ok _, .error _ => .isFalse (fun hc => Except.noConfusion hc)
  | .ok x, .ok y =>
    if h : x = y then .isTrue (by rw [h])
    else .isFalse (fun hc => h (Except.ok.inj hc))

/-- Unfolding equation for calculateLevel at a parent found in the store. -/
lemma calculateLevel_found {records : List CategoryRecord} {pid : Nat}
    {parent : CategoryRecord} (hfind : getById records pid = some parent) :
    calculateLevel records (some pid) =
      if parent.level + 1 > MAX_HIERARCHY_LEVEL then
        .error ⟨.BUSINESS_RULE_ERROR,
          "Cannot create more than 3 levels of categories", 400⟩
      else
        .ok (parent.level + 1) := by
  rw [calculateLevel_some, hfind]

/-- Claim C2: calculateLevel returns 1 for a null parent, VALIDATION_ERROR
when the parent id is absent from the store, and otherwise parent level plus
one unless that exceeds 3, in which case BUSINESS_RULE_ERROR; consequently
categoryCreate under a level-3 parent with unique name and slug fails with
BUSINESS_RULE_ERROR. -/
theorem claim_C2 (records : List CategoryRecord) :
    calculateLevel records none = .ok 1 ∧
    (∀ pid, getById records pid = none →
      calculateLevel records (some pid) =
        .error ⟨.VALIDATION_ERROR, "Parent category does not exist", 400⟩) ∧
    (∀ pid parent, getById records pid = some parent →
      (parent.level + 1 > MAX_HIERARCHY_LEVEL →
        calculateLevel records (some pid) =
          .error ⟨.BUSINESS_RULE_ERROR,
            "Cannot create more than 3 levels of categories", 400⟩) ∧
      (parent.level + 1 ≤ MAX_HIERARCHY_LEVEL →
        calculateLevel records (some pid) = .ok (parent.level + 1))) ∧
    (∀ (s : CategoryStore) (params : CreateInput) (now : String) (pid : Nat)
        (parent : CategoryRecord),
      params.parentId = some pid →
      getById s.records pid = some parent →
      parent.level = 3 →
      validateUniqueNameAtLevel s.records params.name params.parentId none = .ok () →
      validateUniqueSlug s.records (generateSlug params.name) none = .ok () →
      (categoryCreate s params now).1 =
        .error ⟨.BUSINESS_RULE_ERROR,
          "Cannot create more than 3 levels of categories", 400⟩) := by
  refine ⟨rfl, ?_, ?_, ?_⟩
  · intro pid hnone
    rw [calculateLevel_some, hnone]
  · intro pid parent hfind
    constructor
    · intro hgt
      rw [calculateLevel_found hfind, if_pos hgt]
    · intro hle
      rw [calculateLevel_found hfind, if_neg (by omega)]
  · intro s params now pid parent hpid hfind hlev hname hslug
    have hcalc : calculateLevel s.records params.parentId =
        .error ⟨.BUSINESS_RULE_ERROR,
          "Cannot create more than 3 levels of categories", 400⟩ := by
      rw [hpid, calculateLevel_found hfind, if_pos]
      rw [hlev]
      decide
    unfold categoryCreate
    rw [hname, hslug, hcalc]

/-- Concrete store holding one level-3 category for the claim C2 witness. -/
def c2store : CategoryStore :=
  { records := [mkCatRecord 1 none 3], slugIndex := [("c", 1)], currentId := 1 }

/-- Concrete create body pointing at the level-3 category. -/
def c2params : CreateInput :=
  { name := "New", parentId := some 1, description := none, imageUrl := none,
    displayOrder := none, active := none, featured := none, metaTitle := none,
    metaDescription := none }

/-- Witness for claim C2: creating a child of the concrete level-3 category
fails with BUSINESS_RULE_ERROR, via the theorem with its uniqueness and
lookup hypotheses discharged concretely. -/
theorem claim_C2_witness :
    (categoryCreate c2store c2params "t").1 =
      .error ⟨.BUSINESS_RULE_ERROR,
        "Cannot create more than 3 levels of categories", 400⟩ :=
  (claim_C2 []).2.2.2 c2store c2params "t" 1 (mkCatRecord 1 none 3)
    (by decide) (by decide) (by decide) (by decide) (by decide)

/-- Patch holding only a product count, as passed by updateProductCount. -/
def pcPatch (n : Nat) : CategoryPatch := { productCount := some n }

/-- Fuelled form of updateProductCount: looks the category up, clamps its
product count by the delta, then recurses to the parent. The source
recursion carries no fuel; it terminates exactly when the parent chain is
acyclic, and then it makes at most one call per record plus one, so the fuel
chosen below never runs out under that condition. -/
def updateProductCountFuel : Nat → CategoryStore → Nat → Int → CategoryStore
  | 0, s, _, _ => s
  | fuel + 1, s, categoryId, delta =>
    match getById s.records categoryId with
    | none => s
    | some category =>
      let s1 := (storeUpdate s categoryId
        (pcPatch (((category.productCount : Int) + delta).toNat))).2
      match category.parentId with
      | none => s1
      | some p => updateProductCountFuel fuel s1 p delta

/-- Propagates a product-count delta from a category up its parent chain,
clamping at zero on every node. Direct translation of updateProductCount. -/
def updateProductCount (s : CategoryStore) (categoryId : Nat) (delta : Int) :
    CategoryStore :=
  updateProductCountFuel (s.records.length + 1) s categoryId delta

/-- Ids on the ancestor chain from a start id, collected within the bound
that any terminating chain respects. -/
def chainMembers (records : List CategoryRecord) (start : Nat) : List Nat :=
  (List.range (records.length + 1)).filterMap (chainSeq records start)

/-- Applies the clamped product-count change of updateProductCount to one
record. -/
def clampRec (delta : Int) (c : CategoryRecord) : CategoryRecord :=
  { c with productCount := ((c.productCount : Int) + delta).toNat }

/-- In-place replacement of the record with a given id, the shape of a map
set through the service update. -/
def replaceAt (id : Nat) (r : CategoryRecord) (c : CategoryRecord) :
    CategoryRecord :=
  if c.id == id then r else c

/-- A record found by id carries that id. -/
lemma getById_id {records : List CategoryRecord} {id : Nat} {c : CategoryRecord}
    (h : getById records id = some c) : c.id = id := by
  have := List.find?_some h
  simpa using this

/-- A record found by id belongs to the store. -/
lemma getById_mem {records : List CategoryRecord} {id : Nat} {c : CategoryRecord}
    (h : getById records id = some c) : c ∈ records :=
  List.mem_of_find?_eq_some h

/-- With distinct ids, any member sharing the id of a found record is that
record. -/
lemma getById_unique {records : List CategoryRecord}
    (hnd : (records.map (fun c => c.id)).Nodup) {i : Nat} {cat c : CategoryRecord}
    (h : getById records i = some cat) (hc : c ∈ records) (hid : c.id = i) :
    c = cat :=
  List.inj_on_of_nodup_map hnd hc (getById_mem h) (by rw [hid, getById_id h])

/-- The store update issued by updateProductCount replaces the addressed
record in place by its clamped copy and leaves the slug index and counter
unchanged. -/
lemma storeUpdate_pc (s : CategoryStore) (id : Nat) (n : Nat)
    (cat : CategoryRecord) (hfind : getById s.records id = some cat) :
    (storeUpdate s id (pcPatch n)).2 =
      { s with records :=
          s.records.map (replaceAt id { cat with productCount := n }) } := by
  unfold storeUpdate
  rw [hfind]
  have hany : s.records.any
      (fun c => c.id == (applyPatch cat (pcPatch n)).id) = true :=
    List.any_eq_true.mpr ⟨cat, getById_mem hfind, by simp [applyPatch, pcPatch]⟩
  show ({ s with
      records := setRecordList s.records (applyPatch cat (pcPatch n)),
      slugIndex := s.slugIndex } : CategoryStore) = _
  unfold setRecordList
  rw [if_pos hany]
  have hcid : cat.id = id := getById_id hfind
  congr 1
  apply List.map_congr_left
  intro c _
  show (if c.id == (applyPatch cat (pcPatch n)).id then applyPatch cat (pcPatch n)
    else c) = replaceAt id { cat with productCount := n } c
  have happ : applyPatch cat (pcPatch n) = { cat with productCount := n } := rfl
  rw [happ]
  unfold replaceAt
  rw [show ({ cat with productCount := n } : CategoryRecord).id = id from hcid]

/-- The in-place replacement preserves every id when the replacement record
carries the addressed id. -/
lemma replaceAt_id {id : Nat} {r : CategoryRecord} (hr : r.id = id)
    (c : CategoryRecord) : (replaceAt id r c).id = c.id := by
  unfold replaceAt
  by_cases h : c.id == id
  · rw [if_pos h, hr]
    exact (beq_iff_eq.mp h).symm
  · rw [if_neg h]

/-- Lookup by id commutes with a map that preserves ids. -/
lemma getById_map {f : CategoryRecord → CategoryRecord}
    (hfid : ∀ c, (f c).id = c.id) (l : List CategoryRecord) (i : Nat) :
    getById (l.map f) i = (getById l i).map f := by
  unfold getById
  rw [List.find?_map]
  have hfun : ((fun c : CategoryRecord => c.id == i) ∘ f) =
      (fun c : CategoryRecord => c.id == i) := by
    funext c
    show ((f c).id == i) = (c.id == i)
    rw [hfid c]
  rw [hfun]

/-- One parent step is unchanged by a map that preserves ids and, on store
members, parent ids. -/
lemma stepParent_map {f : CategoryRecord → CategoryRecord}
    (hfid : ∀ c, (f c).id = c.id) {l : List CategoryRecord}
    (hfp : ∀ c ∈ l, (f c).parentId = c.parentId) (x : Nat) :
    stepParent (l.map f) x = stepParent l x := by
  unfold stepParent
  rw [getById_map hfid]
  cases h : getById l x with
  | none => rfl
  | some c =>
    show (f c).parentId = c.parentId
    exact hfp c (getById_mem h)

/-- The whole ancestor chain is unchanged by a map that preserves ids and,
on store members, parent ids. -/
lemma chainSeq_map {f : CategoryRecord → CategoryRecord}
    (hfid : ∀ c, (f c).id = c.id) {l : List CategoryRecord}
    (hfp : ∀ c ∈ l, (f c).parentId = c.parentId) (start : Nat) :
    ∀ k, chainSeq (l.map f) start k = chainSeq l start k := by
  intro k
  induction k with
  | zero => rfl
  | succ k ih =>
    show (chainSeq (l.map f) start k).bind _ = (chainSeq l start k).bind _
    rw [ih]
    cases h : chainSeq l start k with
    | none => rfl
    | some y =>
      show stepParent (l.map f) y = stepParent l y
      exact stepParent_map hfid hfp y

/-- A range filterMap over a function defined below the bound has full
length. -/
lemma filterMap_range_all_some (f : Nat → Option Nat) :
    ∀ n, (∀ k, k < n → (f k).isSome) → ((List.range n).filterMap f).length = n := by
  intro n
  induction n with
  | zero => intro _; rfl
  | succ n ih =>
    intro h
    rw [List.range_succ, List.filterMap_append, List.length_append,
      ih (fun k hk => h k (by omega))]
    cases hf : f n with
    | none =>
      have := h n (by omega)
      rw [hf] at this
      exact absurd this (by simp)
    | some y => simp [List.filterMap_cons, hf]

/-- A chain position below a defined position is defined. -/
lemma chainSeq_isSome_of_le {records : List CategoryRecord} {start t k : Nat}
    (hk : k ≤ t) {x : Nat} (ht : chainSeq records start t = some x) :
    (chainSeq records start k).isSome := by
  cases h : chainSeq records start k with
  | some y => rfl
  | none =>
    have := chainSeq_none_mono records start hk h
    rw [this] at ht
    exact Option.noConfusion ht

/-- A terminating chain is no longer than the store: its positions before
the terminator are distinct ids present in the store. -/
lemma chain_t_le_length (records : List CategoryRecord) (start t x : Nat)
    (ht : chainSeq records start t = some x)
    (hx : stepParent records x = none) : t ≤ records.length := by
  have hterm : ∃ u y, chainSeq records start u = some y ∧
      stepParent records y = none := ⟨t, x, ht, hx⟩
  have hlen : ((List.range t).filterMap (chainSeq records start)).length = t :=
    filterMap_range_all_some _ t
      (fun k hk => chainSeq_isSome_of_le (by omega) ht)
  have hnd : ((List.range t).filterMap (chainSeq records start)).Nodup := by
    apply List.Nodup.filterMap
    · intro a a' b hb hb'
      by_contra hne
      rcases Nat.lt_or_ge a a' with hlt | hge
      · exact (chainSeq_inj records start hterm hlt (by simpa using hb))
          (by simpa using hb')
      · have hlt : a' < a := by omega
        exact (chainSeq_inj records start hterm hlt (by simpa using hb'))
          (by simpa using hb)
    · exact List.nodup_range t
  have hsub : ∀ y ∈ (List.range t).filterMap (chainSeq records start),
      y ∈ records.map (fun c => c.id) := by
    intro y hy
    rw [List.mem_filterMap] at hy
    obtain ⟨k, hk, hfk⟩ := hy
    rw [List.mem_range] at hk
    have hnext : (chainSeq records start (k + 1)).isSome :=
      chainSeq_isSome_of_le (by omega) ht
    have hred : chainSeq records start (k + 1) =
        (chainSeq records start k).bind (stepParent records) := rfl
    rw [hred, hfk] at hnext
    have hsome : (stepParent records y).isSome := by simpa using hnext
    unfold stepParent at hsome
    cases hg : getById records y with
    | none =>
      rw [hg] at hsome
      exact absurd hsome (by simp)
    | some c =>
      exact List.mem_map.mpr ⟨c, getById_mem hg, getById_id hg⟩
  have hsp := List.subperm_of_subset hnd hsub
  have hle := hsp.length_le
  rw [hlen, List.length_map] at hle
  exact hle

/-- Range positions past every defined chain position contribute nothing to
the filterMap. -/
lemma filterMap_range_shrink (f : Nat → Option Nat) :
    ∀ n m, m ≤ n → (∀ k, m ≤ k → f k = none) →
      (List.range n).filterMap f = (List.range m).filterMap f := by
  intro n
  induction n with
  | zero =>
    intro m hm _
    rw [Nat.le_zero.mp hm]
  | succ n ih =>
    intro m hm hnone
    by_cases hmn : m = n + 1
    · rw [hmn]
    · have hm' : m ≤ n := by omega
      have hfn : List.filterMap f [n] = [] := by
        simp [List.filterMap_cons, hnone n (by omega)]
      rw [List.range_succ, List.filterMap_append, hfn, List.append_nil,
        ih m hm' hnone]

/-- Main induction for updateProductCount: with distinct ids and a chain
from the start id that terminates at position t within the fuel, the run
clamps the product count of exactly the records on the chain and changes
nothing else. -/
lemma updateProductCountFuel_spec (delta : Int) :
    ∀ (t : Nat) (s : CategoryStore) (categoryId x fuel : Nat),
      (s.records.map (fun c => c.id)).Nodup →
      chainSeq s.records categoryId t = some x →
      stepParent s.records x = none →
      t < fuel →
      updateProductCountFuel fuel s categoryId delta =
        { s with records := s.records.map (fun c =>
            if c.id ∈ (List.range (t + 1)).filterMap (chainSeq s.records categoryId)
            then clampRec delta c else c) } := by
  intro t
  induction t with
  | zero =>
    intro s categoryId x fuel hnd ht hx hfuel
    have hxc : x = categoryId := by
      have hts : (some categoryId : Option Nat) = some x := ht
      exact (Option.some.inj hts).symm
    subst hxc
    cases fuel with
    | zero => exact absurd hfuel (by omega)
    | succ f =>
      cases hg : getById s.records x with
      | none =>
        have hL : updateProductCountFuel (f + 1) s x delta = s := by
          rw [updateProductCountFuel, hg]
        rw [hL]
        have hpt : ∀ c ∈ s.records,
            (if c.id ∈ (List.range (0 + 1)).filterMap (chainSeq s.records x)
             then clampRec delta c else c) = c := by
          intro c hc
          rw [if_neg]
          intro hmem
          rw [List.mem_filterMap] at hmem
          obtain ⟨k, hk, hfk⟩ := hmem
          rw [List.mem_range] at hk
          have hk0 : k = 0 := by omega
          subst hk0
          have hts : (some x : Option Nat) = some c.id := hfk
          have hcid := (Option.some.inj hts).symm
          unfold getById at hg
          rw [List.find?_eq_none] at hg
          exact hg c hc (by simp [hcid])
        have hmap : s.records.map (fun c =>
            if c.id ∈ (List.range (0 + 1)).filterMap (chainSeq s.records x)
            then clampRec delta c else c) = s.records := by
          have h2 := List.map_congr_left hpt
          rw [h2, List.map_id']
        rw [hmap]
      | some category =>
        have hpar : category.parentId = none := by
          unfold stepParent at hx
          rw [hg] at hx
          simpa using hx
        set n := ((category.productCount : Int) + delta).toNat with hn
        have hL : updateProductCountFuel (f + 1) s x delta =
            (storeUpdate s x (pcPatch n)).2 := by
          rw [updateProductCountFuel, hg]
          show (match category.parentId with
            | none => (storeUpdate s x (pcPatch n)).2
            | some p => updateProductCountFuel f
                ((storeUpdate s x (pcPatch n)).2) p delta) = _
          rw [hpar]
        rw [hL, storeUpdate_pc s x n category hg]
        congr 1
        apply List.map_congr_left
        intro c hc
        by_cases hcid : c.id = x
        · have hceq : c = category := getById_unique hnd hg hc hcid
          unfold replaceAt
          rw [if_pos (beq_iff_eq.mpr hcid), if_pos]
          · rw [hceq]
            rfl
          · rw [List.mem_filterMap]
            refine ⟨0, by simp, ?_⟩
            show some x = some c.id
            rw [hcid]
        · unfold replaceAt
          rw [if_neg (by simpa using hcid), if_neg]
          intro hmem
          rw [List.mem_filterMap] at hmem
          obtain ⟨k, hk, hfk⟩ := hmem
          rw [List.mem_range] at hk
          have hk0 : k = 0 := by omega
          subst hk0
          have hts : (some x : Option Nat) = some c.id := hfk
          exact hcid (Option.some.inj hts).symm
  | succ t ih =>
    intro s categoryId x fuel hnd ht hx hfuel
    have hterm : ∃ u y, chainSeq s.records categoryId u = some y ∧
        stepParent s.records y = none := ⟨t + 1, x, ht, hx⟩
    have h1some : (chainSeq s.records categoryId 1).isSome :=
      chainSeq_isSome_of_le (by omega) ht
    have h1eq : chainSeq s.records categoryId 1 =
        stepParent s.records categoryId := rfl
    rw [h1eq] at h1some
    obtain ⟨p, hp⟩ := Option.isSome_iff_exists.mp h1some
    have hgc : ∃ category, getById s.records categoryId = some category ∧
        category.parentId = some p := by
      unfold stepParent at hp
      cases hgg : getById s.records categoryId with
      | none =>
        rw [hgg] at hp
        exact absurd hp (by simp)
      | some category =>
        rw [hgg] at hp
        exact ⟨category, rfl, by simpa using hp⟩
    obtain ⟨category, hg, hparp⟩ := hgc
    cases fuel with
    | zero => exact absurd hfuel (by omega)
    | succ f =>
      set n := ((category.productCount : Int) + delta).toNat with hn
      set r : CategoryRecord := { category with productCount := n } with hr
      have hrid : r.id = categoryId := by
        rw [hr]
        show category.id = categoryId
        exact getById_id hg
      have hfid : ∀ c, (replaceAt categoryId r c).id = c.id :=
        replaceAt_id hrid
      have hfp : ∀ c ∈ s.records,
          (replaceAt categoryId r c).parentId = c.parentId := by
        intro c hc
        unfold replaceAt
        by_cases hcc : (c.id == categoryId) = true
        · rw [if_pos hcc]
          have hceq : c = category :=
            getById_unique hnd hg hc (beq_iff_eq.mp hcc)
          rw [hceq, hr]
        · rw [if_neg hcc]
      have hL : updateProductCountFuel (f + 1) s categoryId delta =
          updateProductCountFuel f ((storeUpdate s categoryId (pcPatch n)).2)
            p delta := by
        rw [updateProductCountFuel, hg]
        show (match category.parentId with
          | none => (storeUpdate s categoryId (pcPatch n)).2
          | some q => updateProductCountFuel f
              ((storeUpdate s categoryId (pcPatch n)).2) q delta) = _
        rw [hparp]
      rw [hL, storeUpdate_pc s categoryId n category hg]
      set s1 : CategoryStore :=
        { s with records := s.records.map (replaceAt categoryId r) } with hs1
      have hids : s1.records.map (fun c => c.id) =
          s.records.map (fun c => c.id) := by
        rw [hs1]
        show (s.records.map (replaceAt categoryId r)).map (fun c => c.id) = _
        rw [List.map_map]
        exact List.map_congr_left (fun c _ => hfid c)
      have hchain1 : ∀ start k, chainSeq s1.records start k =
          chainSeq s.records start k := by
        intro start k
        rw [hs1]
        exact chainSeq_map hfid hfp start k
      have hchainp : chainSeq s1.records p t = some x := by
        rw [hchain1]
        have hred : chainSeq s.records categoryId (t + 1) =
            (stepParent s.records categoryId).bind
              (fun y => chainSeq s.records y t) :=
          chainSeq_succ_front s.records categoryId t
        rw [hred, hp] at ht
        exact ht
      have hstepx : stepParent s1.records x = none := by
        rw [hs1]
        show stepParent (s.records.map (replaceAt categoryId r)) x = none
        rw [stepParent_map hfid hfp x]
        exact hx
      have hnd1 : (s1.records.map (fun c => c.id)).Nodup := by
        rw [hids]
        exact hnd
      have hIH := ih s1 p x f hnd1 hchainp hstepx (by omega)
      rw [hIH]
      have hMeq : chainSeq s1.records p = chainSeq s.records p :=
        funext (fun k => hchain1 p k)
      rw [hMeq]
      have hsplit : ∀ y, y ∈ (List.range (t + 1 + 1)).filterMap
          (chainSeq s.records categoryId) ↔
          (y = categoryId ∨
            y ∈ (List.range (t + 1)).filterMap (chainSeq s.records p)) := by
        intro y
        constructor
        · intro hy
          rw [List.mem_filterMap] at hy
          obtain ⟨k, hk, hfk⟩ := hy
          rw [List.mem_range] at hk
          match k, hk, hfk with
          | 0, hk, hfk =>
            left
            have hts : (some categoryId : Option Nat) = some y := hfk
            exact (Option.some.inj hts).symm
          | k + 1, hk, hfk =>
            right
            rw [List.mem_filterMap]
            refine ⟨k, by rw [List.mem_range]; omega, ?_⟩
            have hred : chainSeq s.records categoryId (k + 1) =
                (stepParent s.records categoryId).bind
                  (fun z => chainSeq s.records z k) :=
              chainSeq_succ_front s.records categoryId k
            rw [hred, hp] at hfk
            exact hfk
        · intro hy
          rcases hy with hy | hy
          · rw [List.mem_filterMap]
            refine ⟨0, by simp, ?_⟩
            show some categoryId = some y
            rw [hy]
          · rw [List.mem_filterMap] at hy ⊢
            obtain ⟨k, hk, hfk⟩ := hy
            rw [List.mem_range] at hk
            refine ⟨k + 1, by rw [List.mem_range]; omega, ?_⟩
            have hred : chainSeq s.records categoryId (k + 1) =
                (stepParent s.records categoryId).bind
                  (fun z => chainSeq s.records z k) :=
              chainSeq_succ_front s.records categoryId k
            rw [hred, hp]
            exact hfk
      have hnotp : categoryId ∉
          (List.range (t + 1)).filterMap (chainSeq s.records p) := by
        intro hmem
        rw [List.mem_filterMap] at hmem
        obtain ⟨k, hk, hfk⟩ := hmem
        have h0 : chainSeq s.records categoryId 0 = some categoryId := rfl
        have hinj : chainSeq s.records categoryId (k + 1) ≠ some categoryId :=
          chainSeq_inj s.records categoryId hterm (by omega) h0
        have hred : chainSeq s.records categoryId (k + 1) =
            (stepParent s.records categoryId).bind
              (fun z => chainSeq s.records z k) :=
          chainSeq_succ_front s.records categoryId k
        rw [hred, hp] at hinj
        exact hinj hfk
      have hcomp : s1.records.map (fun c =>
          if c.id ∈ (List.range (t + 1)).filterMap (chainSeq s.records p)
          then clampRec delta c else c) =
          s.records.map (fun c =>
            if c.id ∈ (List.range (t + 1 + 1)).filterMap
                (chainSeq s.records categoryId)
            then clampRec delta c else c) := by
        rw [hs1]
        show (s.records.map (replaceAt categoryId r)).map _ = _
        rw [List.map_map]
        apply List.map_congr_left
        intro c hc
        simp only [Function.comp_apply]
        by_cases hcid : c.id = categoryId
        · have hceq : c = category := getById_unique hnd hg hc hcid
          have hrep : replaceAt categoryId r c = r := by
            unfold replaceAt
            rw [if_pos (beq_iff_eq.mpr hcid)]
          rw [hrep, if_neg (by rw [hrid]; exact hnotp),
            if_pos ((hsplit c.id).mpr (Or.inl hcid)), hceq]
          rfl
        · have hrep : replaceAt categoryId r c = c := by
            unfold replaceAt
            rw [if_neg (by simpa using hcid)]
          rw [hrep]
          by_cases hm : c.id ∈ (List.range (t + 1)).filterMap
              (chainSeq s.records p)
          · rw [if_pos hm, if_pos ((hsplit c.id).mpr (Or.inr hm))]
          · rw [if_neg hm, if_neg]
            intro hmem
            rcases (hsplit c.id).mp hmem with h1 | h2
            · exact hcid h1
            · exact hm h2
      rw [hcomp]

/-- Claim C3: on a store with distinct ids whose parent chain from the
given category terminates (acyclic store), updateProductCount sets the
product count of that category and of every ancestor on the chain to the
old value plus delta clamped at zero, and changes no other record and no
other part of the store. -/
theorem claim_C3 (s : CategoryStore) (categoryId : Nat) (delta : Int)
    (hnd : (s.records.map (fun c => c.id)).Nodup)
    (hterm : ∃ t x, chainSeq s.records categoryId t = some x ∧
      stepParent s.records x = none) :
    updateProductCount s categoryId delta =
      { s with records := s.records.map (fun c =>
          if c.id ∈ chainMembers s.records categoryId
          then clampRec delta c else c) } := by
  obtain ⟨t, x, ht, hx⟩ := hterm
  have hbound : t ≤ s.records.length :=
    chain_t_le_length s.records categoryId t x ht hx
  have hspec := updateProductCountFuel_spec delta t s categoryId x
    (s.records.length + 1) hnd ht hx (by omega)
  unfold updateProductCount
  rw [hspec]
  have hnone : ∀ k, t + 1 ≤ k → chainSeq s.records categoryId k = none := by
    intro k hk
    have hred : chainSeq s.records categoryId (t + 1) =
        (chainSeq s.records categoryId t).bind (stepParent s.records) := rfl
    have h1 : chainSeq s.records categoryId (t + 1) = none := by
      rw [hred, ht]
      simpa using hx
    exact chainSeq_none_mono s.records categoryId hk h1
  have hshrink : chainMembers s.records categoryId =
      (List.range (t + 1)).filterMap (chainSeq s.records categoryId) := by
    unfold chainMembers
    exact filterMap_range_shrink _ (s.records.length + 1) (t + 1)
      (by omega) hnone
  rw [hshrink]

/-- Concrete three-level store with an unrelated root, for the claim C3
witness: 3 is a level-3 child of 2, which is a child of root 1; root 4 is
outside the chain. -/
def c3store : CategoryStore :=
  { records :=
      [ { mkCatRecord 1 none 1 with productCount := 5 },
        { mkCatRecord 2 (some 1) 2 with productCount := 3 },
        { mkCatRecord 3 (some 2) 3 with productCount := 1 },
        { mkCatRecord 4 none 1 with productCount := 7 } ],
    slugIndex := [], currentId := 4 }

/-- Expected store after a plus-one on category 3: counts incremented on 3
and on its two ancestors only. -/
def c3expected : CategoryStore :=
  { records :=
      [ { mkCatRecord 1 none 1 with productCount := 6 },
        { mkCatRecord 2 (some 1) 2 with productCount := 4 },
        { mkCatRecord 3 (some 2) 3 with productCount := 2 },
        { mkCatRecord 4 none 1 with productCount := 7 } ],
    slugIndex := [], currentId := 4 }

/-- Witness for claim C3: a plus-one on the concrete level-3 category 3
increments the product count of 3 and of its level-2 and level-1 ancestors
and leaves the unrelated root untouched, via the theorem with its
hypotheses discharged concretely. -/
theorem claim_C3_witness :
    ((c3store.records.map (fun c => c.id)).Nodup ∧
      (∃ t x, chainSeq c3store.records 3 t = some x ∧
        stepParent c3store.records x = none)) ∧
    updateProductCount c3store 3 1 = c3expected := by
  refine ⟨⟨by decide, ⟨2, 1, by decide, by decide⟩⟩, ?_⟩
  exact (claim_C3 c3store 3 1 (by decide) ⟨2, 1, by decide, by decide⟩).trans
    (by decide)

/-- Sort keys accepted by the product list query. -/
inductive SortBy where
  | name_asc
  | name_desc
  | date_asc
  | date_desc
deriving DecidableEq, Repr

/-- Product specifications block. -/
structure ProductSpecs where
  dimensions : Option String
  material : Option String
deriving DecidableEq, Repr

/-- Product record as stored by the in-memory product store; the ISO date
strings are modelled by their epoch milliseconds, the value the service
compares through getTime. -/
structure ProductRecord where
  id : Nat
  name : String
  description : Option String
  category : String
  imageUrl : String
  additionalImages : List String
  specifications : ProductSpecs
  dateCreated : Nat
  dateModified : Nat
deriving DecidableEq, Repr

/-- Substring test on character lists, modelling the JavaScript includes
call. -/
def containsSub (hay sub : List Char) : Bool :=
  (List.range (hay.length + 1)).any (fun i => sub.isPrefixOf (hay.drop i))

/-- Product list query after schema validation: all parameters optional and
defaulted inside the service. -/
structure ProductListQuery where
  search : Option String
  category : Option String
  sortBy : Option SortBy
  page : Option Nat
  pageSize : Option Nat
deriving DecidableEq, Repr

/-- Projection of a product for list responses. -/
structure ProductListItem where
  id : Nat
  name : String
  category : String
  imageUrl : String
  dateCreated : Nat
deriving DecidableEq, Repr

/-- Paginated product list response. -/
structure ProductListResponse where
  items : List ProductListItem
  total : Nat
  page : Nat
  pageSize : Nat
  totalPages : Nat
  hasNext : Bool
  hasPrevious : Bool
deriving DecidableEq, Repr

/-- Sort comparator of productList as a should-stay-before relation: a
stable sort under this relation realises the JavaScript stable sort under
the source comparator; the locale-aware name comparison is modelled by
code-point string order. -/
def sortLe (sortBy : SortBy) (a b : ProductRecord) : Bool :=
  match sortBy with
  | .name_asc => decide (a.name ≤ b.name)
  | .name_desc => decide (b.name ≤ a.name)
  | .date_asc => decide (a.dateCreated ≤ b.dateCreated)
  | .date_desc => decide (b.dateCreated ≤ a.dateCreated)

/-- Search predicate of productList: case-insensitive substring match on the
name, or on the description when present. -/
def searchMatches (searchLower : String) (p : ProductRecord) : Bool :=
  containsSub (toLowerStr p.name).toList searchLower.toList ||
    (match p.description with
     | some d => containsSub (toLowerStr d).toList searchLower.toList
     | none => false)

/-- The two filters of productList; a query field that is absent or empty
is falsy in the source and disables its filter. -/
def productFilter (query : ProductListQuery) (products : List ProductRecord) :
    List ProductRecord :=
  let f1 :=
    match query.search with
    | none => products
    | some s =>
      if s = "" then products
      else products.filter (searchMatches (toLowerStr s))
  match query.category with
  | none => f1
  | some cat =>
    if cat = "" then f1 else f1.filter (fun p => p.category == cat)

/-- Projection applied to each page item. -/
def projListItem (p : ProductRecord) : ProductListItem :=
  { id := p.id, name := p.name, category := p.category,
    imageUrl := p.imageUrl, dateCreated := p.dateCreated }

/-- Lists products with filtering, stable sorting, and pagination. Direct
translation of productList; the ceiling of the real division by the
validated positive page size is the rounded-up Nat division. -/
def productList (products : List ProductRecord) (query : ProductListQuery) :
    ProductListResponse :=
  let page := query.page.getD 1
  let pageSize := query.pageSize.getD 9
  let sortBy := query.sortBy.getD SortBy.date_desc
  let sorted := (productFilter query products).mergeSort (sortLe sortBy)
  let total := sorted.length
  let totalPages := (total + pageSize - 1) / pageSize
  let offset := (page - 1) * pageSize
  let items := ((sorted.drop offset).take pageSize).map projListItem
  { items := items, total := total, page := page, pageSize := pageSize,
    totalPages := totalPages, hasNext := decide (page < totalPages),
    hasPrevious := decide (page > 1) }

/-- Builds a minimal product for concrete instances. -/
def mkProduct (i : Nat) : ProductRecord :=
  { id := i, name := "p" ++ toString i, description := none, category := "cat",
    imageUrl := "u", additionalImages := [], specifications := ⟨none, none⟩,
    dateCreated := i, dateModified := i }

/-- Ten concrete products. -/
def tenProducts : List ProductRecord := (List.range 10).map mkProduct

/-- Query selecting a page with the page size of the concrete scenario. -/
def pageQuery (page : Nat) : ProductListQuery :=
  { search := none, category := none, sortBy := none, page := some page,
    pageSize := some 9 }

/-- Rounded-up division bounds for the validated page sizes. -/
lemma ceil_bounds (L ps : Nat) (h : ps = 9 ∨ ps = 18 ∨ ps = 27 ∨ ps = 36) :
    L ≤ (L + ps - 1) / ps * ps ∧ (L + ps - 1) / ps * ps < L + ps := by
  rcases h with h | h | h | h <;> subst h <;> omega

/-- Length of the served page: the page size capped by what remains after
the offset. -/
lemma productList_items_length (products : List ProductRecord)
    (query : ProductListQuery) :
    (productList products query).items.length =
      min (query.pageSize.getD 9)
        ((productFilter query products).length -
          (query.page.getD 1 - 1) * (query.pageSize.getD 9)) := by
  show (((((productFilter query products).mergeSort
        (sortLe (query.sortBy.getD SortBy.date_desc))).drop
      ((query.page.getD 1 - 1) * (query.pageSize.getD 9))).take
    (query.pageSize.getD 9)).map projListItem).length = _
  simp only [List.length_map, List.length_take, List.length_drop,
    List.length_mergeSort]

/-- The next-page flag in terms of the filtered count. -/
lemma productList_hasNext (products : List ProductRecord)
    (query : ProductListQuery) :
    (productList products query).hasNext =
      decide (query.page.getD 1 <
        ((productFilter query products).length + (query.pageSize.getD 9) - 1) /
          (query.pageSize.getD 9)) := by
  show decide (query.page.getD 1 <
      (((productFilter query products).mergeSort
          (sortLe (query.sortBy.getD SortBy.date_desc))).length +
        (query.pageSize.getD 9) - 1) / (query.pageSize.getD 9)) = _
  rw [List.length_mergeSort]

/-- Claim C4: for every product collection and validated query, productList
reports the filtered count as total, the rounded-up page count, the page
slice of the sorted filtered list as items, the boundary flags, and an
empty page without error beyond the last page; concretely, ten products at
page size nine give nine items and hasNext on page one, and one item with
hasPrevious and no hasNext on page two. -/
theorem claim_C4 (products : List ProductRecord) (query : ProductListQuery)
    (hps : ∀ ps, query.pageSize = some ps →
      ps = 9 ∨ ps = 18 ∨ ps = 27 ∨ ps = 36) :
    ((productList products query).total =
      (productFilter query products).length) ∧
    ((productList products query).total ≤
        (productList products query).totalPages * (query.pageSize.getD 9) ∧
      (productList products query).totalPages * (query.pageSize.getD 9) <
        (productList products query).total + (query.pageSize.getD 9)) ∧
    ((productList products query).items =
      ((((productFilter query products).mergeSort
            (sortLe (query.sortBy.getD SortBy.date_desc))).drop
          ((query.page.getD 1 - 1) * (query.pageSize.getD 9))).take
        (query.pageSize.getD 9)).map projListItem) ∧
    ((productList products query).items.length =
      min (query.pageSize.getD 9)
        ((productList products query).total -
          (query.page.getD 1 - 1) * (query.pageSize.getD 9))) ∧
    ((productList products query).hasNext =
      decide (query.page.getD 1 < (productList products query).totalPages)) ∧
    ((productList products query).hasPrevious =
      decide (query.page.getD 1 > 1)) ∧
    (query.page.getD 1 > (productList products query).totalPages →
      (productList products query).items = []) ∧
    (productList tenProducts (pageQuery 1)).items.length = 9 ∧
    (productList tenProducts (pageQuery 1)).hasNext = true ∧
    (productList tenProducts (pageQuery 2)).items.length = 1 ∧
    (productList tenProducts (pageQuery 2)).hasNext = false ∧
    (productList tenProducts (pageQuery 2)).hasPrevious = true := by
  have hps' : query.pageSize.getD 9 = 9 ∨ query.pageSize.getD 9 = 18 ∨
      query.pageSize.getD 9 = 27 ∨ query.pageSize.getD 9 = 36 := by
    cases hq : query.pageSize with
    | none => left; rfl
    | some ps =>
      have h := hps ps hq
      simpa [hq] using h
  have hceil := ceil_bounds ((productFilter query products).mergeSort
    (sortLe (query.sortBy.getD SortBy.date_desc))).length
    (query.pageSize.getD 9) hps'
  have htotal : (productList products query).total =
      (productFilter query products).length := List.length_mergeSort _
  refine ⟨htotal, hceil, rfl, ?_, rfl, rfl, ?_, ?_, ?_, ?_, ?_, ?_⟩
  · rw [productList_items_length, htotal]
  · intro hgt
    have hgt' : query.page.getD 1 >
        (((productFilter query products).mergeSort
            (sortLe (query.sortBy.getD SortBy.date_desc))).length +
          (query.pageSize.getD 9) - 1) / (query.pageSize.getD 9) := hgt
    have h2 : (((productFilter query products).mergeSort
        (sortLe (query.sortBy.getD SortBy.date_desc))).length +
          (query.pageSize.getD 9) - 1) / (query.pageSize.getD 9) ≤
        query.page.getD 1 - 1 := by omega
    have h3 := Nat.mul_le_mul_right (query.pageSize.getD 9) h2
    have hoff : ((productFilter query products).mergeSort
        (sortLe (query.sortBy.getD SortBy.date_desc))).length ≤
        (query.page.getD 1 - 1) * (query.pageSize.getD 9) := by
      omega
    show ((((productFilter query products).mergeSort
          (sortLe (query.sortBy.getD SortBy.date_desc))).drop
        ((query.page.getD 1 - 1) * (query.pageSize.getD 9))).take
      (query.pageSize.getD 9)).map projListItem = []
    rw [List.drop_eq_nil_of_le hoff]
    simp
  · rw [productList_items_length]
    decide
  · rw [productList_hasNext]
    decide
  · rw [productList_items_length]
    decide
  · rw [productList_hasNext]
    decide
  · rfl

/-- Witness for claim C4: the theorem applied to the concrete ten-product
store and the first-page query, with the page-size validation hypothesis
discharged concretely; it yields the reported total of ten. -/
theorem claim_C4_witness :
    (productList tenProducts (pageQuery 1)).total =
      (productFilter (pageQuery 1) tenProducts).length :=
  (claim_C4 tenProducts (pageQuery 1)
    (fun ps hps => by injection hps with h; left; omega)).1

/-- The eight product image view angles. -/
inductive ViewAngle where
  | frontal
  | lateral_esquerda
  | lateral_direita
  | superior
  | inferior
  | traseira
  | detalhe
  | ambiente
deriving DecidableEq, Repr

/-- Maximum images per product, from PRODUCT_IMAGE_DEFAULTS. -/
def MAX_IMAGES_PER_PRODUCT : Nat := 10

/-- Product image record as stored by the in-memory image store. -/
structure ProductImageRecord where
  id : Nat
  productId : Nat
  imageUrl : String
  thumbnailUrl : String
  highResUrl : String
  displayOrder : Nat
  caption : Option String
  altText : String
  viewAngle : ViewAngle
  dateCreated : String
  dateModified : String
deriving DecidableEq, Repr

/-- Lookup of an image by id. -/
def imgById (images : List ProductImageRecord) (id : Nat) :
    Option ProductImageRecord :=
  images.find? (fun img => img.id == id)

/-- Number of images of a product. -/
def countImgs (images : List ProductImageRecord) (pid : Nat) : Nat :=
  (images.filter (fun img => img.productId == pid)).length

/-- One entry of the reorder request body. -/
structure ReorderItem where
  id : Nat
  displayOrder : Nat
deriving DecidableEq, Repr

/-- The ownership check of the reorder validation loop: an entry is bad
when its image is absent or belongs to another product. -/
def isBadItem (images : List ProductImageRecord) (productId : Nat)
    (item : ReorderItem) : Bool :=
  match imgById images item.id with
  | none => true
  | some image => image.productId != productId

/-- One display-order update of the reorder mutation loop on one stored
image. -/
def setImageOrder (now : String) (item : ReorderItem)
    (img : ProductImageRecord) : ProductImageRecord :=
  if img.id == item.id then
    { img with displayOrder := item.displayOrder, dateModified := now }
  else img

/-- The mutation loop of the reorder: each entry updated in request
order. -/
def applyReorder (images : List ProductImageRecord)
    (imageOrder : List ReorderItem) (now : String) : List ProductImageRecord :=
  imageOrder.foldl (fun acc item => acc.map (setImageOrder now item)) images

/-- Reorders the images of a product: checks the product, then checks every
entry for ownership, and only then applies the display-order updates.
Direct translation of productImageReorder; the two loops of the source
appear as the find of the first bad entry and the fold of the updates. -/
def productImageReorder (productIds : List Nat)
    (images : List ProductImageRecord) (productId : Nat)
    (imageOrder : List ReorderItem) (now : String) :
    Except ServiceErr (List ProductImageRecord) :=
  if productId ∉ productIds then
    .error ⟨.NOT_FOUND, "Product not found", 404⟩
  else
    match imageOrder.find? (isBadItem images productId) with
    | some item =>
      .error ⟨.BUSINESS_RULE_ERROR,
        "Image " ++ toString item.id ++ " does not belong to product " ++
          toString productId, 400⟩
    | none => .ok (applyReorder images imageOrder now)

/-- Cumulative effect of the reorder mutation loop on a single image. -/
def composedOrderUpdate (imageOrder : List ReorderItem) (now : String)
    (img : ProductImageRecord) : ProductImageRecord :=
  imageOrder.foldl (fun im item => setImageOrder now item im) img

/-- Positionwise description of the mutation loop. -/
lemma applyReorder_getElem? (now : String) :
    ∀ (imageOrder : List ReorderItem) (images : List ProductImageRecord)
      (j : Nat),
      (applyReorder images imageOrder now)[j]? =
        (images[j]?).map (composedOrderUpdate imageOrder now) := by
  intro imageOrder
  induction imageOrder with
  | nil =>
    intro images j
    show images[j]? = (images[j]?).map (fun img => img)
    cases images[j]? <;> rfl
  | cons item rest ih =>
    intro images j
    show (applyReorder (images.map (setImageOrder now item)) rest now)[j]? = _
    rw [ih (images.map (setImageOrder now item)) j, List.getElem?_map]
    cases images[j]? with
    | none => rfl
    | some img => rfl

/-- An image referenced by no reorder entry is unchanged by the mutation
loop. -/
lemma composedOrderUpdate_id (now : String) :
    ∀ (imageOrder : List ReorderItem) (img : ProductImageRecord),
      img.id ∉ imageOrder.map (fun it => it.id) →
      composedOrderUpdate imageOrder now img = img := by
  intro imageOrder
  induction imageOrder with
  | nil => intro img _; rfl
  | cons item rest ih =>
    intro img h
    have hne : img.id ≠ item.id := by
      intro hc
      exact h (by rw [List.map_cons, hc]; exact List.mem_cons_self _ _)
    show composedOrderUpdate rest now (setImageOrder now item img) = img
    have hset : setImageOrder now item img = img := by
      unfold setImageOrder
      rw [if_neg (by simpa using hne)]
    rw [hset]
    apply ih
    intro hc
    exact h (by rw [List.map_cons]; exact List.mem_cons_of_mem _ hc)

/-- Claim C5: with the product present, a reorder request with any entry
whose image is missing or owned by another product fails with
BUSINESS_RULE_ERROR naming the first offending id, and no image is touched;
a request that succeeds had every referenced image owned by the product,
and images referenced by no entry keep their stored value at their
position, so display orders change only after every ownership check has
passed. -/
theorem claim_C5 (productIds : List Nat) (images : List ProductImageRecord)
    (productId : Nat) (imageOrder : List ReorderItem) (now : String)
    (hp : productId ∈ productIds) :
    (∀ item, imageOrder.find? (isBadItem images productId) = some item →
      productImageReorder productIds images productId imageOrder now =
        .error ⟨.BUSINESS_RULE_ERROR,
          "Image " ++ toString item.id ++ " does not belong to product " ++
            toString productId, 400⟩) ∧
    ((∃ item ∈ imageOrder, isBadItem images productId item = true) →
      ∃ e, productImageReorder productIds images productId imageOrder now =
        .error e ∧ e.code = .BUSINESS_RULE_ERROR) ∧
    (∀ l, productImageReorder productIds images productId imageOrder now =
        .ok l →
      (∀ item ∈ imageOrder, ∃ img, imgById images item.id = some img ∧
        img.productId = productId) ∧
      (∀ (j : Nat) (img : ProductImageRecord), images[j]? = some img →
        img.id ∉ imageOrder.map (fun it => it.id) → l[j]? = some img)) := by
  have hmem : ¬ productId ∉ productIds := not_not_intro hp
  refine ⟨?_, ?_, ?_⟩
  · intro item hfind
    unfold productImageReorder
    rw [if_neg hmem, hfind]
  · intro hbad
    cases hfind : imageOrder.find? (isBadItem images productId) with
    | none =>
      rw [List.find?_eq_none] at hfind
      obtain ⟨item, hi, hb⟩ := hbad
      exact absurd hb (by simpa using hfind item hi)
    | some item =>
      refine ⟨⟨.BUSINESS_RULE_ERROR,
        "Image " ++ toString item.id ++ " does not belong to product " ++
          toString productId, 400⟩, ?_, rfl⟩
      unfold productImageReorder
      rw [if_neg hmem, hfind]
  · intro l hok
    unfold productImageReorder at hok
    rw [if_neg hmem] at hok
    cases hfind : imageOrder.find? (isBadItem images productId) with
    | some item =>
      rw [hfind] at hok
      exact Except.noConfusion hok
    | none =>
      rw [hfind] at hok
      have hl : l = applyReorder images imageOrder now :=
        (Except.ok.inj hok).symm
      rw [List.find?_eq_none] at hfind
      constructor
      · intro item hi
        have hgood := hfind item hi
        unfold isBadItem at hgood
        cases hg : imgById images item.id with
        | none =>
          rw [hg] at hgood
          exact absurd (Eq.refl true) hgood
        | some img =>
          rw [hg] at hgood
          refine ⟨img, rfl, ?_⟩
          have : ¬((img.productId != productId) = true) := by simpa using hgood
          simpa using this
      · intro j img hj hnotin
        rw [hl, applyReorder_getElem? now imageOrder images j, hj]
        show some (composedOrderUpdate imageOrder now img) = some img
        rw [composedOrderUpdate_id now imageOrder img hnotin]

/-- Builds a minimal product image for concrete witness stores. -/
def mkImage (id pid : Nat) : ProductImageRecord :=
  { id := id, productId := pid, imageUrl := "u", thumbnailUrl := "t",
    highResUrl := "h", displayOrder := 1, caption := none, altText := "a",
    viewAngle := .frontal, dateCreated := "", dateModified := "" }

/-- Witness for claim C5: reordering product 1 with an entry for image 11,
which belongs to product 2, fails with BUSINESS_RULE_ERROR naming image 11,
via the theorem with the lookup hypotheses discharged concretely. -/
theorem claim_C5_witness :
    productImageReorder [1, 2] [mkImage 10 1, mkImage 11 2] 1
      [⟨11, 1⟩] "t" =
      .error ⟨.BUSINESS_RULE_ERROR,
        "Image 11 does not belong to product 1", 400⟩ := by
  have h := (claim_C5 [1, 2] [mkImage 10 1, mkImage 11 2] 1 [⟨11, 1⟩] "t"
    (by decide)).1 ⟨11, 1⟩ (by decide)
  rw [h]
  decide

/-- Body of an image create request after schema validation; displayOrder
is optional, caption nullable. -/
structure ImageCreateInput where
  imageUrl : String
  thumbnailUrl : String
  highResUrl : String
  displayOrder : Option Nat
  caption : Option String
  altText : String
  viewAngle : ViewAngle
deriving DecidableEq, Repr

/-- Creates a product image: checks the product, enforces the ten-image
cap, assigns the display order when omitted as one past the maximum, and
appends the record. Direct translation of productImageCreate. -/
def productImageCreate (productIds : List Nat)
    (images : List ProductImageRecord) (productId : Nat)
    (body : ImageCreateInput) (now : String) (newId : Nat) :
    Except ServiceErr (ProductImageRecord × List ProductImageRecord) :=
  if productId ∉ productIds then
    .error ⟨.NOT_FOUND, "Product not found", 404⟩
  else
    if (images.filter (fun img => img.productId == productId)).length ≥
        MAX_IMAGES_PER_PRODUCT then
      .error ⟨.BUSINESS_RULE_ERROR, "Maximum of 10 images per product", 400⟩
    else
      let existingImages := images.filter (fun img => img.productId == productId)
      let displayOrder := body.displayOrder.getD
        (if existingImages.length > 0 then
          (existingImages.map (fun img => img.displayOrder)).foldl Nat.max 0 + 1
        else 1)
      let newImage : ProductImageRecord :=
        { id := newId, productId := productId, imageUrl := body.imageUrl,
          thumbnailUrl := body.thumbnailUrl, highResUrl := body.highResUrl,
          displayOrder := displayOrder, caption := body.caption,
          altText := body.altText, viewAngle := body.viewAngle,
          dateCreated := now, dateModified := now }
      .ok (newImage, images ++ [newImage])

/-- Deletes a product image unless it is the last image of its product.
Direct translation of productImageDelete; the map delete becomes a filter
on the id key. -/
def productImageDelete (images : List ProductImageRecord) (id : Nat) :
    Except ServiceErr (List ProductImageRecord) :=
  match imgById images id with
  | none => .error ⟨.NOT_FOUND, "Product image not found", 404⟩
  | some existing =>
    if (images.filter (fun img => img.productId == existing.productId)).length
        = 1 then
      .error ⟨.BUSINESS_RULE_ERROR,
        "Cannot delete the last image of a product", 400⟩
    else
      .ok (images.filter (fun img => img.id != id))

/-- Removing the one record that holds a given id lowers its product image
count by exactly one. -/
lemma countImgs_erase (id0 : Nat) :
    ∀ (images : List ProductImageRecord) (ex : ProductImageRecord),
      (images.map (fun img => img.id)).Nodup →
      imgById images id0 = some ex →
      countImgs (images.filter (fun img => img.id != id0)) ex.productId + 1 =
        countImgs images ex.productId := by
  intro images
  induction images with
  | nil =>
    intro ex _ hfind
    exact Option.noConfusion hfind
  | cons a t ih =>
    intro ex hnd hfind
    have hndt : (t.map (fun img => img.id)).Nodup := by
      rw [List.map_cons] at hnd
      exact hnd.of_cons
    by_cases ha : (a.id == id0) = true
    · have hax : ex = a := by
        unfold imgById at hfind
        rw [List.find?_cons, ha] at hfind
        exact (Option.some.inj hfind).symm
      have htkeep : t.filter (fun img => img.id != id0) = t := by
        rw [List.filter_eq_self]
        intro b hb
        rw [List.map_cons] at hnd
        have hnb : b.id ≠ a.id := by
          intro hc
          exact (List.nodup_cons.mp hnd).1
            (List.mem_map.mpr ⟨b, hb, hc⟩)
        have hba : b.id ≠ id0 := by
          intro hc
          exact hnb (hc.trans (beq_iff_eq.mp ha).symm)
        simpa using hba
      show countImgs ((a :: t).filter (fun img => img.id != id0))
          ex.productId + 1 = _
      rw [List.filter_cons, if_neg (by simp [beq_iff_eq.mp ha]), htkeep]
      show countImgs t ex.productId + 1 = countImgs (a :: t) ex.productId
      unfold countImgs
      rw [List.filter_cons, if_pos (by rw [hax]; simp)]
      rw [List.length_cons]
    · have hfind' : imgById t id0 = some ex := by
        have ha' : (a.id == id0) = false := by simpa using ha
        unfold imgById at hfind ⊢
        rw [List.find?_cons, ha'] at hfind
        exact hfind
      have hih := ih ex hndt hfind'
      show countImgs ((a :: t).filter (fun img => img.id != id0))
          ex.productId + 1 = countImgs (a :: t) ex.productId
      unfold countImgs at hih ⊢
      rw [List.filter_cons]
      rw [if_pos (by simpa using (fun hc => ha (beq_iff_eq.mpr hc)))]
      rw [List.filter_cons, List.filter_cons]
      by_cases hap : (a.productId == ex.productId) = true
      · rw [if_pos hap, if_pos hap, List.length_cons, List.length_cons]
        omega
      · rw [if_neg hap, if_neg hap]
        exact hih

/-- Claim C6: with the product present, creating an image fails with
BUSINESS_RULE_ERROR whenever the product already has ten or more images,
and a successful create raises the count by one to at most ten; deleting
the only image of a product fails with BUSINESS_RULE_ERROR, and a
successful delete removes exactly one image and leaves the product at
least one. -/
theorem claim_C6 (productIds : List Nat) (images : List ProductImageRecord)
    (productId : Nat) (body : ImageCreateInput) (now : String) (newId : Nat)
    (id : Nat) (hnd : (images.map (fun img => img.id)).Nodup) :
    (productId ∈ productIds →
      countImgs images productId ≥ MAX_IMAGES_PER_PRODUCT →
      productImageCreate productIds images productId body now newId =
        .error ⟨.BUSINESS_RULE_ERROR, "Maximum of 10 images per product", 400⟩) ∧
    (∀ img store',
      productImageCreate productIds images productId body now newId =
        .ok (img, store') →
      countImgs store' productId = countImgs images productId + 1 ∧
      countImgs store' productId ≤ MAX_IMAGES_PER_PRODUCT) ∧
    (∀ existing, imgById images id = some existing →
      countImgs images existing.productId = 1 →
      productImageDelete images id =
        .error ⟨.BUSINESS_RULE_ERROR,
          "Cannot delete the last image of a product", 400⟩) ∧
    (∀ store', productImageDelete images id = .ok store' →
      ∃ existing, imgById images id = some existing ∧
        countImgs store' existing.productId + 1 =
          countImgs images existing.productId ∧
        1 ≤ countImgs store' existing.productId) := by
  refine ⟨?_, ?_, ?_, ?_⟩
  · intro hp hge
    unfold productImageCreate
    rw [if_neg (not_not_intro hp), if_pos (show (images.filter
      (fun img => img.productId == productId)).length ≥
        MAX_IMAGES_PER_PRODUCT from hge)]
  · intro img store' hok
    unfold productImageCreate at hok
    by_cases hp : productId ∉ productIds
    · rw [if_pos hp] at hok
      exact Except.noConfusion hok
    · rw [if_neg hp] at hok
      by_cases hge : (images.filter (fun i => i.productId == productId)).length
          ≥ MAX_IMAGES_PER_PRODUCT
      · rw [if_pos hge] at hok
        exact Except.noConfusion hok
      · rw [if_neg hge] at hok
        have heq := Except.ok.inj hok
        injection heq with h1 h2
        have hstore : store' = images ++ [img] := by
          rw [← h2, ← h1]
        have hpid : img.productId = productId := by
          rw [← h1]
        have hone : (List.filter (fun i => i.productId == productId)
            [img]).length = 1 := by
          simp [List.filter_cons, hpid]
        have hcnt : countImgs store' productId =
            countImgs images productId + 1 := by
          rw [hstore]
          unfold countImgs
          rw [List.filter_append, List.length_append, hone]
        refine ⟨hcnt, ?_⟩
        have hceq : countImgs images productId =
            (images.filter (fun i => i.productId == productId)).length := rfl
        simp only [MAX_IMAGES_PER_PRODUCT] at hge ⊢
        omega
  · intro existing hfind h1
    unfold productImageDelete
    rw [hfind]
    show (if (images.filter
        (fun img => img.productId == existing.productId)).length = 1 then
        (.error ⟨.BUSINESS_RULE_ERROR,
          "Cannot delete the last image of a product", 400⟩ :
          Except ServiceErr (List ProductImageRecord))
      else .ok (images.filter (fun img => img.id != id))) = _
    rw [if_pos (show (images.filter
      (fun img => img.productId == existing.productId)).length = 1 from h1)]
  · intro store' hok
    unfold productImageDelete at hok
    cases hfind : imgById images id with
    | none =>
      rw [hfind] at hok
      exact Except.noConfusion hok
    | some existing =>
      rw [hfind] at hok
      have hok2 : (if (images.filter
          (fun img => img.productId == existing.productId)).length = 1 then
          (.error ⟨.BUSINESS_RULE_ERROR,
            "Cannot delete the last image of a product", 400⟩ :
            Except ServiceErr (List ProductImageRecord))
        else .ok (images.filter (fun img => img.id != id))) = .ok store' := hok
      by_cases h1 : (images.filter
          (fun img => img.productId == existing.productId)).length = 1
      · rw [if_pos h1] at hok2
        exact Except.noConfusion hok2
      · rw [if_neg h1] at hok2
        have hstore : store' = images.filter (fun img => img.id != id) :=
          (Except.ok.inj hok2).symm
        have herase := countImgs_erase id images existing hnd hfind
        refine ⟨existing, rfl, ?_, ?_⟩
        · rw [hstore]
          exact herase
        · have hmem1 : existing ∈ images.filter
              (fun img => img.productId == existing.productId) :=
            List.mem_filter.mpr ⟨List.mem_of_find?_eq_some hfind, by simp⟩
          have hpos : 0 < (images.filter
              (fun img => img.productId == existing.productId)).length :=
            List.length_pos.mpr (List.ne_nil_of_mem hmem1)
          have hcount : countImgs images existing.productId =
              (images.filter
                (fun img => img.productId == existing.productId)).length := rfl
          rw [hstore]
          omega

/-- Ten concrete images of product 1. -/
def tenImages : List ProductImageRecord :=
  (List.range 10).map (fun i => mkImage (i + 1) 1)

/-- Concrete image create body. -/
def c6body : ImageCreateInput :=
  { imageUrl := "u", thumbnailUrl := "t", highResUrl := "h",
    displayOrder := none, caption := none, altText := "a",
    viewAngle := .frontal }

/-- Witness for claim C6: an eleventh image for a product already holding
ten fails with BUSINESS_RULE_ERROR, via the theorem with the count and
membership hypotheses discharged concretely. -/
theorem claim_C6_witness :
    productImageCreate [1] tenImages 1 c6body "t" 11 =
      .error ⟨.BUSINESS_RULE_ERROR, "Maximum of 10 images per product", 400⟩ :=
  (claim_C6 [1] tenImages 1 c6body "t" 11 1 (by decide)).1
    (by decide) (by decide)

/-- String length window check of the update schemas. -/
def slenOk (s : String) (lo hi : Nat) : Bool :=
  decide (lo ≤ s.length ∧ s.length ≤ hi)

/-- Positive integer check for a nullable id field. -/
def posOk (o : Option Nat) : Bool :=
  match o with
  | none => true
  | some p => decide (1 ≤ p)

/-- Maximum length check for a nullable string field. -/
def olenOk (o : Option String) (hi : Nat) : Bool :=
  match o with
  | none => true
  | some s => decide (s.length ≤ hi)

/-- Raw body of a category update request: the outer option is presence of
the key, the inner option is null for the nullable fields. -/
structure CategoryUpdateBody where
  name : Option String
  parentId : Option (Option Nat)
  description : Option (Option String)
  imageUrl : Option (Option String)
  displayOrder : Option Nat
  active : Option Bool
  featured : Option Bool
  metaTitle : Option (Option String)
  metaDescription : Option (Option String)
deriving DecidableEq, Repr

/-- Parsed category update data; every field of the update schema is
required. -/
structure UpdateInput where
  name : String
  parentId : Option Nat
  description : Option String
  imageUrl : Option String
  displayOrder : Nat
  active : Bool
  featured : Bool
  metaTitle : Option String
  metaDescription : Option String
deriving DecidableEq, Repr

/-- Parse of the category update schema: succeeds only when every field is
present and within its limits; the non-negative integer constraint on
displayOrder is carried by the Nat type. Direct translation of the Zod
updateSchema for categories. -/
def parseCategoryUpdate (b : CategoryUpdateBody) : Except ServiceErr UpdateInput :=
  match b.name, b.parentId, b.description, b.imageUrl, b.displayOrder,
      b.active, b.featured, b.metaTitle, b.metaDescription with
  | some name, some parentId, some description, some imageUrl,
      some displayOrder, some active, some featured, some metaTitle,
      some metaDescription =>
    if slenOk name 2 50 && posOk parentId && olenOk description 500 &&
        olenOk imageUrl 500 && olenOk metaTitle 70 &&
        olenOk metaDescription 160 then
      .ok { name := name, parentId := parentId, description := description,
            imageUrl := imageUrl, displayOrder := displayOrder,
            active := active, featured := featured, metaTitle := metaTitle,
            metaDescription := metaDescription }
    else
      .error ⟨.VALIDATION_ERROR, "Validation failed", 400⟩
  | _, _, _, _, _, _, _, _, _ =>
    .error ⟨.VALIDATION_ERROR, "Validation failed", 400⟩

/-- Updates a category: parses the full-field body, finds the record,
re-validates name uniqueness, cycle safety, the regenerated slug and the
level, then writes every field with a fresh dateModified through the store
update. Direct translation of categoryUpdate; the pair carries the result
and the post-call store; the final arm is unreachable because the record
was found above. -/
def categoryUpdate (s : CategoryStore) (id : Nat) (body : CategoryUpdateBody)
    (now : String) : Except ServiceErr CategoryRecord × CategoryStore :=
  match parseCategoryUpdate body with
  | .error e => (.error e, s)
  | .ok u =>
    match getById s.records id with
    | none => (.error ⟨.NOT_FOUND, "Category not found", 404⟩, s)
    | some _ =>
      match validateUniqueNameAtLevel s.records u.name u.parentId (some id) with
      | .error e => (.error e, s)
      | .ok () =>
        match validateNoCycle s.records id u.parentId with
        | .error e => (.error e, s)
        | .ok () =>
          match validateUniqueSlug s.records (generateSlug u.name) (some id) with
          | .error e => (.error e, s)
          | .ok () =>
            match calculateLevel s.records u.parentId with
            | .error e => (.error e, s)
            | .ok level =>
              match storeUpdate s id
                  { name := some u.name,
                    slug := some (generateSlug u.name),
                    parentId := some u.parentId, level := some level,
                    description := some u.description,
                    imageUrl := some u.imageUrl,
                    displayOrder := some u.displayOrder,
                    active := some u.active, featured := some u.featured,
                    metaTitle := some u.metaTitle,
                    metaDescription := some u.metaDescription,
                    dateModified := some now } with
              | (some updated, s1) => (.ok updated, s1)
              | (none, s1) => (.error ⟨.INTERNAL, "Category not found", 500⟩, s1)

/-- Raw body of a product image update request. -/
structure ImageUpdateBody where
  imageUrl : Option String
  thumbnailUrl : Option String
  highResUrl : Option String
  displayOrder : Option Nat
  caption : Option (Option String)
  altText : Option String
  viewAngle : Option ViewAngle
deriving DecidableEq, Repr

/-- Parsed product image update data; every field of the update schema is
required. -/
structure ImageUpdateInput where
  imageUrl : String
  thumbnailUrl : String
  highResUrl : String
  displayOrder : Nat
  caption : Option String
  altText : String
  viewAngle : ViewAngle
deriving DecidableEq, Repr

/-- Parse of the product image update schema: succeeds only when every
field is present and within its limits; the positive integer constraint on
displayOrder requires at least one. Direct translation of the Zod
updateSchema for product images. -/
def parseImageUpdate (b : ImageUpdateBody) : Except ServiceErr ImageUpdateInput :=
  match b.imageUrl, b.thumbnailUrl, b.highResUrl, b.displayOrder, b.caption,
      b.altText, b.viewAngle with
  | some imageUrl, some thumbnailUrl, some highResUrl, some displayOrder,
      some caption, some altText, some viewAngle =>
    if slenOk imageUrl 1 500 && slenOk thumbnailUrl 1 500 &&
        slenOk highResUrl 1 500 && decide (1 ≤ displayOrder) &&
        olenOk caption 100 && slenOk altText 1 100 then
      .ok { imageUrl := imageUrl, thumbnailUrl := thumbnailUrl,
            highResUrl := highResUrl, displayOrder := displayOrder,
            caption := caption, altText := altText, viewAngle := viewAngle }
    else
      .error ⟨.VALIDATION_ERROR, "Validation failed", 400⟩
  | _, _, _, _, _, _, _ =>
    .error ⟨.VALIDATION_ERROR, "Validation failed", 400⟩

/-- Updates a product image: parses the full-field body, finds the record,
and writes every field with a fresh dateModified. Direct translation of
productImageUpdate. -/
def productImageUpdate (images : List ProductImageRecord) (id : Nat)
    (body : ImageUpdateBody) (now : String) :
    Except ServiceErr ProductImageRecord × List ProductImageRecord :=
  match parseImageUpdate body with
  | .error e => (.error e, images)
  | .ok u =>
    match imgById images id with
    | none => (.error ⟨.NOT_FOUND, "Product image not found", 404⟩, images)
    | some existing =>
      let updated : ProductImageRecord :=
        { existing with
          imageUrl := u.imageUrl,
          thumbnailUrl := u.thumbnailUrl, highResUrl := u.highResUrl,
          displayOrder := u.displayOrder, caption := u.caption,
          altText := u.altText, viewAngle := u.viewAngle,
          dateModified := now }
      (.ok updated, images.map (fun img => if img.id == id then updated else img))

/-- The category store as seeded at construction: four root categories with
their slugs indexed and the id counter at four. Direct translation of
seedInitialData. -/
def seedStore : CategoryStore :=
  { records :=
      [ { id := 1, name := "Sala de Estar", slug := "sala-de-estar",
          parentId := none, level := 1,
          description := some "Móveis elegantes e confortáveis para sua sala de estar",
          imageUrl := some "https://via.placeholder.com/300x300/4A5568/FFFFFF?text=Sala+de+Estar",
          displayOrder := 1, active := true, featured := true,
          metaTitle := some "Móveis para Sala de Estar | Lozorio Móveis",
          metaDescription := some "Encontre sofás, poltronas, racks e aparadores para sua sala de estar",
          productCount := 4, dateCreated := "2024-01-01T00:00:00.000Z",
          dateModified := "2024-01-01T00:00:00.000Z" },
        { id := 2, name := "Quarto", slug := "quarto",
          parentId := none, level := 1,
          description := some "Móveis para criar o quarto dos seus sonhos",
          imageUrl := some "https://via.placeholder.com/300x300/2C3E50/FFFFFF?text=Quarto",
          displayOrder := 2, active := true, featured := true,
          metaTitle := some "Móveis para Quarto | Lozorio Móveis",
          metaDescription := some "Camas, guarda-roupas e cômodas para seu quarto",
          productCount := 2, dateCreated := "2024-01-01T00:00:00.000Z",
          dateModified := "2024-01-01T00:00:00.000Z" },
        { id := 3, name := "Cozinha", slug := "cozinha",
          parentId := none, level := 1,
          description := some "Móveis funcionais e modernos para sua cozinha",
          imageUrl := some "https://via.placeholder.com/300x300/8B4513/FFFFFF?text=Cozinha",
          displayOrder := 3, active := true, featured := true,
          metaTitle := some "Móveis para Cozinha | Lozorio Móveis",
          metaDescription := some "Mesas, cadeiras e armários para sua cozinha",
          productCount := 2, dateCreated := "2024-01-01T00:00:00.000Z",
          dateModified := "2024-01-01T00:00:00.000Z" },
        { id := 4, name := "Escritório", slug := "escritorio",
          parentId := none, level := 1,
          description := some "Móveis ergonômicos para seu home office",
          imageUrl := some "https://via.placeholder.com/300x300/34495E/FFFFFF?text=Escritorio",
          displayOrder := 4, active := true, featured := true,
          metaTitle := some "Móveis para Escritório | Lozorio Móveis",
          metaDescription := some "Escrivaninhas e cadeiras ergonômicas para trabalhar em casa",
          productCount := 2, dateCreated := "2024-01-01T00:00:00.000Z",
          dateModified := "2024-01-01T00:00:00.000Z" } ],
    slugIndex :=
      [("sala-de-estar", 1), ("quarto", 2), ("cozinha", 3), ("escritorio", 4)],
    currentId := 4 }

/-- Category update body that omits the active field but supplies every
other field with valid values. -/
def c9badBody : CategoryUpdateBody :=
  { name := some "Quarto Novo", parentId := some none,
    description := some none, imageUrl := some none, displayOrder := some 0,
    active := none, featured := some false, metaTitle := some none,
    metaDescription := some none }

/-- Claim C9 counterexample: on the seeded store, a category update that
omits one mutable field is rejected with VALIDATION_ERROR and changes
nothing, so callers cannot supply a proper subset of fields; the update
schema requires every field. -/
theorem claim_C9_counterexample :
    categoryUpdate seedStore 2 c9badBody "2026-01-01T00:00:00.000Z" =
      (.error ⟨.VALIDATION_ERROR, "Validation failed", 400⟩, seedStore) := by
  decide

/-- A successful store update found the record and returned the patch
spread over it. -/
theorem storeUpdate_some_applyPatch (s : CategoryStore) (id : Nat)
    (d : CategoryPatch) (upd : CategoryRecord) (s1 : CategoryStore)
    (h : storeUpdate s id d = (some upd, s1)) :
    ∃ ex, getById s.records id = some ex ∧ upd = applyPatch ex d := by
  unfold storeUpdate at h
  cases hg : getById s.records id with
  | none =>
    rw [hg] at h
    have hfe : (none : Option CategoryRecord) = some upd := congrArg Prod.fst h
    exact Option.noConfusion hfe
  | some ex =>
    rw [hg] at h
    have hfe : some (applyPatch ex d) = some upd := congrArg Prod.fst h
    exact ⟨ex, rfl, (Option.some.inj hfe).symm⟩

/-- Claim C9 (amended): updates are full updates, not partial ones. The
category and product image update schemas parse successfully only when
every mutable field is supplied, and every successful categoryUpdate or
productImageUpdate writes the fresh timestamp into dateModified. -/
theorem claim_C9 :
    (∀ (b : CategoryUpdateBody) (u : UpdateInput),
        parseCategoryUpdate b = .ok u →
        b.name = some u.name ∧ b.parentId = some u.parentId ∧
        b.description = some u.description ∧ b.imageUrl = some u.imageUrl ∧
        b.displayOrder = some u.displayOrder ∧ b.active = some u.active ∧
        b.featured = some u.featured ∧ b.metaTitle = some u.metaTitle ∧
        b.metaDescription = some u.metaDescription) ∧
    (∀ (b : ImageUpdateBody) (u : ImageUpdateInput),
        parseImageUpdate b = .ok u →
        b.imageUrl = some u.imageUrl ∧ b.thumbnailUrl = some u.thumbnailUrl ∧
        b.highResUrl = some u.highResUrl ∧
        b.displayOrder = some u.displayOrder ∧ b.caption = some u.caption ∧
        b.altText = some u.altText ∧ b.viewAngle = some u.viewAngle) ∧
    (∀ (s : CategoryStore) (idv : Nat) (b : CategoryUpdateBody) (now : String)
        (r : CategoryRecord) (sOut : CategoryStore),
        categoryUpdate s idv b now = (.ok r, sOut) → r.dateModified = now) ∧
    (∀ (images : List ProductImageRecord) (idv : Nat) (b : ImageUpdateBody)
        (now : String) (r : ProductImageRecord)
        (imgsOut : List ProductImageRecord),
        productImageUpdate images idv b now = (.ok r, imgsOut) →
        r.dateModified = now) := by
  refine ⟨?_, ?_, ?_, ?_⟩
  · intro b u h
    obtain ⟨bn, bp, bd, bi, bdo, ba, bf, bmt, bmd⟩ := b
    cases bn with
    | none => exact Except.noConfusion h
    | some nm =>
      cases bp with
      | none => exact Except.noConfusion h
      | some pv =>
        cases bd with
        | none => exact Except.noConfusion h
        | some dv =>
          cases bi with
          | none => exact Except.noConfusion h
          | some iv =>
            cases bdo with
            | none => exact Except.noConfusion h
            | some dov =>
              cases ba with
              | none => exact Except.noConfusion h
              | some av =>
                cases bf with
                | none => exact Except.noConfusion h
                | some fv =>
                  cases bmt with
                  | none => exact Except.noConfusion h
                  | some mtv =>
                    cases bmd with
                    | none => exact Except.noConfusion h
                    | some mdv =>
                      have h2 : (if (slenOk nm 2 50 && posOk pv &&
                          olenOk dv 500 && olenOk iv 500 && olenOk mtv 70 &&
                          olenOk mdv 160) = true then
                          (Except.ok
                            { name := nm, parentId := pv,
                              description := dv, imageUrl := iv,
                              displayOrder := dov, active := av,
                              featured := fv, metaTitle := mtv,
                              metaDescription := mdv } :
                            Except ServiceErr UpdateInput)
                        else Except.error
                          ⟨ErrCode.VALIDATION_ERROR, "Validation failed", 400⟩) =
                          Except.ok u := h
                      cases hc : slenOk nm 2 50 && posOk pv && olenOk dv 500 &&
                          olenOk iv 500 && olenOk mtv 70 && olenOk mdv 160 with
                      | false =>
                        rw [hc] at h2
                        exact Except.noConfusion h2
                      | true =>
                        rw [hc] at h2
                        have h3 : (Except.ok
                            { name := nm, parentId := pv,
                              description := dv, imageUrl := iv,
                              displayOrder := dov, active := av,
                              featured := fv, metaTitle := mtv,
                              metaDescription := mdv } :
                            Except ServiceErr UpdateInput) = Except.ok u := h2
                        obtain rfl := Except.ok.inj h3
                        exact ⟨rfl, rfl, rfl, rfl, rfl, rfl, rfl, rfl, rfl⟩
  · intro b u h
    obtain ⟨bu, bt, bh, bdo, bc, ba, bv⟩ := b
    cases bu with
    | none => exact Except.noConfusion h
    | some iu =>
      cases bt with
      | none => exact Except.noConfusion h
      | some tu =>
        cases bh with
        | none => exact Except.noConfusion h
        | some hu =>
          cases bdo with
          | none => exact Except.noConfusion h
          | some dov =>
            cases bc with
            | none => exact Except.noConfusion h
            | some cv =>
              cases ba with
              | none => exact Except.noConfusion h
              | some av =>
                cases bv with
                | none => exact Except.noConfusion h
                | some vv =>
                  have h2 : (if (slenOk iu 1 500 && slenOk tu 1 500 &&
                      slenOk hu 1 500 && decide (1 ≤ dov) && olenOk cv 100 &&
                      slenOk av 1 100) = true then
                      (Except.ok
                        { imageUrl := iu, thumbnailUrl := tu,
                          highResUrl := hu, displayOrder := dov,
                          caption := cv, altText := av, viewAngle := vv } :
                        Except ServiceErr ImageUpdateInput)
                    else Except.error
                      ⟨ErrCode.VALIDATION_ERROR, "Validation failed", 400⟩) =
                      Except.ok u := h
                  cases hc : slenOk iu 1 500 && slenOk tu 1 500 &&
                      slenOk hu 1 500 && decide (1 ≤ dov) && olenOk cv 100 &&
                      slenOk av 1 100 with
                  | false =>
                    rw [hc] at h2
                    exact Except.noConfusion h2
                  | true =>
                    rw [hc] at h2
                    have h3 : (Except.ok
                        { imageUrl := iu, thumbnailUrl := tu,
                          highResUrl := hu, displayOrder := dov,
                          caption := cv, altText := av, viewAngle := vv } :
                        Except ServiceErr ImageUpdateInput) = Except.ok u := h2
                    obtain rfl := Except.ok.inj h3
                    exact ⟨rfl, rfl, rfl, rfl, rfl, rfl, rfl⟩
  · intro s idv b now r sOut h
    unfold categoryUpdate at h
    cases hp : parseCategoryUpdate b with
    | error e =>
      rw [hp] at h
      have hfe : (Except.error e : Except ServiceErr CategoryRecord) =
          Except.ok r := congrArg Prod.fst h
      exact Except.noConfusion hfe
    | ok u =>
      rw [hp] at h
      have h2 : (match getById s.records idv with
        | none =>
          ((Except.error ⟨ErrCode.NOT_FOUND, "Category not found", 404⟩ :
            Except ServiceErr CategoryRecord), s)
        | some _ =>
          match validateUniqueNameAtLevel s.records u.name u.parentId
              (some idv) with
          | .error e => (.error e, s)
          | .ok () =>
            match validateNoCycle s.records idv u.parentId with
            | .error e => (.error e, s)
            | .ok () =>
              match validateUniqueSlug s.records (generateSlug u.name)
                  (some idv) with
              | .error e => (.error e, s)
              | .ok () =>
                match calculateLevel s.records u.parentId with
                | .error e => (.error e, s)
                | .ok level =>
                  match storeUpdate s idv
                      { name := some u.name,
                        slug := some (generateSlug u.name),
                        parentId := some u.parentId, level := some level,
                        description := some u.description,
                        imageUrl := some u.imageUrl,
                        displayOrder := some u.displayOrder,
                        active := some u.active, featured := some u.featured,
                        metaTitle := some u.metaTitle,
                        metaDescription := some u.metaDescription,
                        dateModified := some now } with
                  | (some updated, s1) => (.ok updated, s1)
                  | (none, s1) =>
                    (.error ⟨.INTERNAL, "Category not found", 500⟩, s1)) =
          ((Except.ok r : Except ServiceErr CategoryRecord), sOut) := h
      cases hg : getById s.records idv with
      | none =>
        rw [hg] at h2
        have hfe : (Except.error
            ⟨ErrCode.NOT_FOUND, "Category not found", 404⟩ :
            Except ServiceErr CategoryRecord) = Except.ok r :=
          congrArg Prod.fst h2
        exact Except.noConfusion hfe
      | some ex0 =>
        rw [hg] at h2
        cases hv1 : validateUniqueNameAtLevel s.records u.name u.parentId
            (some idv) with
        | error e =>
          rw [hv1] at h2
          have hfe : (Except.error e : Except ServiceErr CategoryRecord) =
              Except.ok r := congrArg Prod.fst h2
          exact Except.noConfusion hfe
        | ok v1 =>
          cases v1
          rw [hv1] at h2
          cases hv2 : validateNoCycle s.records idv u.parentId with
          | error e =>
            rw [hv2] at h2
            have hfe : (Except.error e : Except ServiceErr CategoryRecord) =
                Except.ok r := congrArg Prod.fst h2
            exact Except.noConfusion hfe
          | ok v2 =>
            cases v2
            rw [hv2] at h2
            cases hv3 : validateUniqueSlug s.records (generateSlug u.name)
                (some idv) with
            | error e =>
              rw [hv3] at h2
              have hfe : (Except.error e : Except ServiceErr CategoryRecord) =
                  Except.ok r := congrArg Prod.fst h2
              exact Except.noConfusion hfe
            | ok v3 =>
              cases v3
              rw [hv3] at h2
              cases hlv : calculateLevel s.records u.parentId with
              | error e =>
                rw [hlv] at h2
                have hfe : (Except.error e : Except ServiceErr CategoryRecord) =
                    Except.ok r := congrArg Prod.fst h2
                exact Except.noConfusion hfe
              | ok level =>
                rw [hlv] at h2
                have h3 : (match storeUpdate s idv
                      { name := some u.name,
                        slug := some (generateSlug u.name),
                        parentId := some u.parentId, level := some level,
                        description := some u.description,
                        imageUrl := some u.imageUrl,
                        displayOrder := some u.displayOrder,
                        active := some u.active, featured := some u.featured,
                        metaTitle := some u.metaTitle,
                        metaDescription := some u.metaDescription,
                        dateModified := some now } with
                  | (some updated, s1) =>
                    ((Except.ok updated : Except ServiceErr CategoryRecord), s1)
                  | (none, s1) =>
                    (Except.error ⟨ErrCode.INTERNAL, "Category not found", 500⟩,
                      s1)) =
                    ((Except.ok r : Except ServiceErr CategoryRecord), sOut) := h2
                rcases hsu : storeUpdate s idv
                    { name := some u.name,
                      slug := some (generateSlug u.name),
                      parentId := some u.parentId, level := some level,
                      description := some u.description,
                      imageUrl := some u.imageUrl,
                      displayOrder := some u.displayOrder,
                      active := some u.active, featured := some u.featured,
                      metaTitle := some u.metaTitle,
                      metaDescription := some u.metaDescription,
                      dateModified := some now } with ⟨fst, st1⟩
                rw [hsu] at h3
                cases fst with
                | none =>
                  have hfe : (Except.error
                      ⟨ErrCode.INTERNAL, "Category not found", 500⟩ :
                      Except ServiceErr CategoryRecord) = Except.ok r :=
                    congrArg Prod.fst h3
                  exact Except.noConfusion hfe
                | some updated =>
                  have hfe : (Except.ok updated :
                      Except ServiceErr CategoryRecord) = Except.ok r :=
                    congrArg Prod.fst h3
                  obtain ⟨ex2, hg2, hap⟩ :=
                    storeUpdate_some_applyPatch _ _ _ _ _ hsu
                  rw [← Except.ok.inj hfe, hap]
                  rfl
  · intro images idv b now r imgsOut h
    unfold productImageUpdate at h
    cases hp : parseImageUpdate b with
    | error e =>
      rw [hp] at h
      have hfe : (Except.error e : Except ServiceErr ProductImageRecord) =
          Except.ok r := congrArg Prod.fst h
      exact Except.noConfusion hfe
    | ok u =>
      rw [hp] at h
      cases hfind2 : imgById images idv with
      | none =>
        rw [hfind2] at h
        have hfe : (Except.error
            ⟨ErrCode.NOT_FOUND, "Product image not found", 404⟩ :
            Except ServiceErr ProductImageRecord) = Except.ok r :=
          congrArg Prod.fst h
        exact Except.noConfusion hfe
      | some existing =>
        rw [hfind2] at h
        have hfe : (Except.ok
            { existing with
              imageUrl := u.imageUrl,
              thumbnailUrl := u.thumbnailUrl, highResUrl := u.highResUrl,
              displayOrder := u.displayOrder, caption := u.caption,
              altText := u.altText, viewAngle := u.viewAngle,
              dateModified := now } : Except ServiceErr ProductImageRecord) =
            Except.ok r := congrArg Prod.fst h
        rw [← Except.ok.inj hfe]

/-- Category update body with every mutable field supplied and valid. -/
def c9fullBody : CategoryUpdateBody :=
  { name := some "Quarto Novo", parentId := some none,
    description := some none, imageUrl := some none, displayOrder := some 0,
    active := some true, featured := some false, metaTitle := some none,
    metaDescription := some none }

/-- The record produced by updating seeded category 2 with c9fullBody. -/
def c9updated : CategoryRecord :=
  { id := 2, name := "Quarto Novo", slug := "quarto-novo", parentId := none,
    level := 1, description := none, imageUrl := none, displayOrder := 0,
    active := true, featured := false, metaTitle := none,
    metaDescription := none, productCount := 2,
    dateCreated := "2024-01-01T00:00:00.000Z",
    dateModified := "2026-01-01T00:00:00.000Z" }

/-- Product image update body with every field supplied and valid. -/
def c9imgBody : ImageUpdateBody :=
  { imageUrl := some "u2", thumbnailUrl := some "t2", highResUrl := some "h2",
    displayOrder := some 1, caption := some none, altText := some "a2",
    viewAngle := some .frontal }

/-- The record produced by updating image 10 of product 1 with c9imgBody. -/
def c9imgUpdated : ProductImageRecord :=
  { id := 10, productId := 1, imageUrl := "u2", thumbnailUrl := "t2",
    highResUrl := "h2", displayOrder := 1, caption := none, altText := "a2",
    viewAngle := .frontal, dateCreated := "",
    dateModified := "2026-01-01T00:00:00.000Z" }

/-- Witness for claim C9: a full-field category update body parses, so its
active field is present; concrete successful category and image updates
carry the fresh dateModified, via the theorem with its hypotheses
discharged on these inputs. -/
theorem claim_C9_witness :
    c9fullBody.active = some true ∧
    (categoryUpdate seedStore 2 c9fullBody "2026-01-01T00:00:00.000Z").1 =
      Except.ok c9updated ∧
    c9updated.dateModified = "2026-01-01T00:00:00.000Z" ∧
    (productImageUpdate [mkImage 10 1] 10 c9imgBody
        "2026-01-01T00:00:00.000Z").1 = Except.ok c9imgUpdated ∧
    c9imgUpdated.dateModified = "2026-01-01T00:00:00.000Z" := by
  have hparse : parseCategoryUpdate c9fullBody =
      Except.ok ⟨"Quarto Novo", none, none, none, 0, true, false, none, none⟩ := by
    decide
  have h1 := claim_C9.1 c9fullBody
    ⟨"Quarto Novo", none, none, none, 0, true, false, none, none⟩ hparse
  have hcat1 : (categoryUpdate seedStore 2 c9fullBody
      "2026-01-01T00:00:00.000Z").1 = Except.ok c9updated := by decide
  have hcatPair : categoryUpdate seedStore 2 c9fullBody
      "2026-01-01T00:00:00.000Z" =
      (Except.ok c9updated,
        (categoryUpdate seedStore 2 c9fullBody "2026-01-01T00:00:00.000Z").2) := by
    rw [← hcat1]
  have hd3 := claim_C9.2.2.1 seedStore 2 c9fullBody "2026-01-01T00:00:00.000Z"
    c9updated _ hcatPair
  have himg1 : (productImageUpdate [mkImage 10 1] 10 c9imgBody
      "2026-01-01T00:00:00.000Z").1 = Except.ok c9imgUpdated := by decide
  have himgPair : productImageUpdate [mkImage 10 1] 10 c9imgBody
      "2026-01-01T00:00:00.000Z" =
      (Except.ok c9imgUpdated,
        (productImageUpdate [mkImage 10 1] 10 c9imgBody
          "2026-01-01T00:00:00.000Z").2) := by
    rw [← himg1]
  have hd4 := claim_C9.2.2.2 [mkImage 10 1] 10 c9imgBody
    "2026-01-01T00:00:00.000Z" c9imgUpdated _ himgPair
  exact ⟨h1.2.2.2.2.2.1, hcat1, hd3, himg1, hd4⟩

/-- Deletes a category: not-found check, subcategory guard, then the raw
store delete. Direct translation of categoryDelete; the pair carries the
result and the post-call store. -/
def categoryDelete (s : CategoryStore) (id : Nat) :
    Except ServiceErr Unit × CategoryStore :=
  match getById s.records id with
  | none => (.error ⟨.NOT_FOUND, "Category not found", 404⟩, s)
  | some _ =>
    if (s.records.filter (fun c => c.parentId == some id)).length > 0 then
      (.error ⟨.BUSINESS_RULE_ERROR,
        "Cannot delete category with subcategories", 400⟩, s)
    else
      (.ok (), storeDelete s id)

/-- One service call against the category store. -/
inductive CatOp where
  | create (params : CreateInput) (now : String)
  | update (id : Nat) (body : CategoryUpdateBody) (now : String)
  | del (id : Nat)
deriving DecidableEq, Repr

/-- The store left behind by one service call. -/
def applyOp (s : CategoryStore) (op : CatOp) : CategoryStore :=
  match op with
  | .create params now => (categoryCreate s params now).2
  | .update id body now => (categoryUpdate s id body now).2
  | .del id => (categoryDelete s id).2

/-- An operation is slug-safe when, if it is an update whose body parses,
the slug regenerated from the new name is nonempty; creates and deletes
are always slug-safe. -/
def okOp (op : CatOp) : Bool :=
  match op with
  | .update _ b _ =>
    match parseCategoryUpdate b with
    | .ok u => generateSlug u.name != ""
    | .error _ => true
  | _ => true

/-- Store sanity: distinct ids and slugs, ids bounded by the counter, each
record reachable through the index under its slug, every index entry backed
by a record, and distinct index keys. -/
def GoodStore (s : CategoryStore) : Prop :=
  (s.records.map (fun c => c.id)).Nodup ∧
  (s.records.map (fun c => c.slug)).Nodup ∧
  (∀ c ∈ s.records, c.id ≤ s.currentId) ∧
  (∀ c ∈ s.records, lookupAssoc s.slugIndex c.slug = some c.id) ∧
  (∀ p ∈ s.slugIndex, ∃ c ∈ s.records, c.slug = p.1 ∧ c.id = p.2) ∧
  (s.slugIndex.map Prod.fst).Nodup

/-- In-place key replacement keeps lookups of other keys. -/
lemma lookupAssoc_map_set_ne (l : List (String × Nat)) (k : String) (v : Nat)
    (k' : String) (h : k' ≠ k) :
    lookupAssoc (l.map (fun p => if p.1 == k then (k, v) else p)) k' =
      lookupAssoc l k' := by
  induction l with
  | nil => rfl
  | cons a t ih =>
    unfold lookupAssoc at ih ⊢
    rw [List.map_cons]
    by_cases hak : a.1 = k
    · have h1 : (if a.1 == k then (k, v) else a) = (k, v) :=
        if_pos (beq_iff_eq.mpr hak)
      have h2 : a.1 ≠ k' := by rw [hak]; exact Ne.symm h
      rw [h1, List.find?_cons_of_neg _ (by simpa using Ne.symm h),
        List.find?_cons_of_neg _ (by simpa using h2)]
      exact ih
    · have h1 : (if a.1 == k then (k, v) else a) = a :=
        if_neg (by simpa using hak)
      rw [h1]
      by_cases hak' : a.1 = k'
      · have hb : (a.1 == k') = true := beq_iff_eq.mpr hak'
        rw [List.find?_cons, List.find?_cons, hb]
      · rw [List.find?_cons_of_neg _ (by simpa using hak'),
          List.find?_cons_of_neg _ (by simpa using hak')]
        exact ih

/-- Appending a fresh key keeps lookups of other keys. -/
lemma lookupAssoc_append_one_ne (l : List (String × Nat)) (k : String)
    (v : Nat) (k' : String) (h : k' ≠ k) :
    lookupAssoc (l ++ [(k, v)]) k' = lookupAssoc l k' := by
  induction l with
  | nil =>
    unfold lookupAssoc
    rw [List.nil_append, List.find?_cons_of_neg _ (by simpa using Ne.symm h)]
  | cons a t ih =>
    unfold lookupAssoc at ih ⊢
    rw [List.cons_append]
    by_cases hak' : a.1 = k'
    · have hb : (a.1 == k') = true := beq_iff_eq.mpr hak'
      rw [List.find?_cons, List.find?_cons, hb]
    · rw [List.find?_cons_of_neg _ (by simpa using hak'),
        List.find?_cons_of_neg _ (by simpa using hak')]
      exact ih

/-- In-place key replacement makes the key map to the new value. -/
lemma lookupAssoc_map_set_self (l : List (String × Nat)) (k : String)
    (v : Nat) :
    l.any (fun p => p.1 == k) = true →
    lookupAssoc (l.map (fun p => if p.1 == k then (k, v) else p)) k =
      some v := by
  induction l with
  | nil => intro ha; exact absurd ha (by simp)
  | cons a t ih =>
    intro ha
    rw [List.map_cons]
    unfold lookupAssoc
    by_cases hak : a.1 = k
    · have h1 : (if a.1 == k then (k, v) else a) = (k, v) :=
        if_pos (beq_iff_eq.mpr hak)
      have hb : ((k, v).1 == k) = true := by simp
      rw [h1, List.find?_cons, hb]
      rfl
    · have h1 : (if a.1 == k then (k, v) else a) = a :=
        if_neg (by simpa using hak)
      have hta : t.any (fun p => p.1 == k) = true := by
        rcases List.any_eq_true.mp ha with ⟨p, hp, hpk⟩
        rcases List.mem_cons.mp hp with rfl | hpt
        · exact absurd (by simpa using hpk) hak
        · exact List.any_eq_true.mpr ⟨p, hpt, hpk⟩
      have hrec := ih hta
      unfold lookupAssoc at hrec
      rw [h1, List.find?_cons_of_neg _ (by simpa using hak)]
      exact hrec

/-- Appending a fresh key makes it map to the new value. -/
lemma lookupAssoc_append_one_self (l : List (String × Nat)) (k : String)
    (v : Nat) :
    l.any (fun p => p.1 == k) = false →
    lookupAssoc (l ++ [(k, v)]) k = some v := by
  induction l with
  | nil =>
    intro _
    unfold lookupAssoc
    have hb : ((k, v).1 == k) = true := by simp
    rw [List.nil_append, List.find?_cons, hb]
    rfl
  | cons a t ih =>
    intro ha
    rw [List.any_cons] at ha
    rcases Bool.or_eq_false_iff.mp ha with ⟨h1, h2⟩
    unfold lookupAssoc at ih ⊢
    rw [List.cons_append, List.find?_cons_of_neg _ (by simp [h1])]
    exact ih h2

/-- Map set makes the key map to the new value. -/
lemma lookupAssoc_setAssoc_self (l : List (String × Nat)) (k : String)
    (v : Nat) : lookupAssoc (setAssoc l k v) k = some v := by
  unfold setAssoc
  by_cases ha : l.any (fun p => p.1 == k) = true
  · rw [if_pos ha]
    exact lookupAssoc_map_set_self l k v ha
  · rw [if_neg ha]
    exact lookupAssoc_append_one_self l k v (Bool.eq_false_iff.mpr ha)

/-- Map set keeps lookups of other keys. -/
lemma lookupAssoc_setAssoc_ne (l : List (String × Nat)) (k : String)
    (v : Nat) (k' : String) (h : k' ≠ k) :
    lookupAssoc (setAssoc l k v) k' = lookupAssoc l k' := by
  unfold setAssoc
  by_cases ha : l.any (fun p => p.1 == k) = true
  · rw [if_pos ha]
    exact lookupAssoc_map_set_ne l k v k' h
  · rw [if_neg ha]
    exact lookupAssoc_append_one_ne l k v k' h

/-- Map delete keeps lookups of other keys. -/
lemma lookupAssoc_delAssoc_ne (l : List (String × Nat)) (k k' : String)
    (h : k' ≠ k) : lookupAssoc (delAssoc l k) k' = lookupAssoc l k' := by
  unfold delAssoc
  induction l with
  | nil => rfl
  | cons a t ih =>
    unfold lookupAssoc at ih ⊢
    by_cases hak : a.1 = k
    · have hcond : (a.1 != k) = false := by simp [hak]
      have h2 : a.1 ≠ k' := by rw [hak]; exact Ne.symm h
      rw [List.filter_cons, hcond, if_neg Bool.false_ne_true,
        List.find?_cons_of_neg _ (by simpa using h2)]
      exact ih
    · have hcond : (a.1 != k) = true := by simp [hak]
      rw [List.filter_cons, hcond, if_pos rfl]
      by_cases hak' : a.1 = k'
      · have hb : (a.1 == k') = true := beq_iff_eq.mpr hak'
        rw [List.find?_cons, List.find?_cons, hb]
      · rw [List.find?_cons_of_neg _ (by simpa using hak'),
          List.find?_cons_of_neg _ (by simpa using hak')]
        exact ih

/-- Membership after a map set: the new pair, or an old pair with a
different key. -/
lemma mem_setAssoc (l : List (String × Nat)) (k : String) (v : Nat)
    (p : String × Nat) (h : p ∈ setAssoc l k v) :
    p = (k, v) ∨ (p ∈ l ∧ p.1 ≠ k) := by
  unfold setAssoc at h
  by_cases ha : l.any (fun q => q.1 == k) = true
  · rw [if_pos ha] at h
    rcases List.mem_map.mp h with ⟨q, hq, heq⟩
    by_cases hqk : q.1 = k
    · left
      rw [← heq]
      exact if_pos (beq_iff_eq.mpr hqk)
    · right
      have hqp : q = p := by
        rw [← heq]
        exact (if_neg (by simpa using hqk)).symm
      rw [← hqp]
      exact ⟨hq, hqk⟩
  · rw [if_neg ha] at h
    rcases List.mem_append.mp h with hl | hr
    · right
      refine ⟨hl, fun hk => ha (List.any_eq_true.mpr ⟨p, hl, by simp [hk]⟩)⟩
    · left
      simpa using hr

/-- Membership after a map delete: an old pair with a different key. -/
lemma mem_delAssoc (l : List (String × Nat)) (k : String)
    (p : String × Nat) (h : p ∈ delAssoc l k) : p ∈ l ∧ p.1 ≠ k := by
  unfold delAssoc at h
  have hm := List.mem_filter.mp h
  exact ⟨hm.1, by simpa using hm.2⟩

/-- Map set keeps the keys without duplicates. -/
lemma keys_setAssoc (l : List (String × Nat)) (k : String) (v : Nat)
    (hnd : (l.map Prod.fst).Nodup) :
    ((setAssoc l k v).map Prod.fst).Nodup := by
  unfold setAssoc
  by_cases ha : l.any (fun q => q.1 == k) = true
  · rw [if_pos ha]
    have hmap : (l.map (fun p => if p.1 == k then (k, v) else p)).map Prod.fst =
        l.map Prod.fst := by
      rw [List.map_map]
      apply List.map_congr_left
      intro p _
      by_cases hpk : p.1 = k
      · simp [hpk]
      · simp [hpk]
    rw [hmap]
    exact hnd
  · rw [if_neg ha]
    rw [List.map_append]
    refine List.Nodup.append hnd (by simp) ?_
    intro x hx hx2
    have hxk : x = k := by simpa using hx2
    rcases List.mem_map.mp hx with ⟨q, hq, hqx⟩
    exact ha (List.any_eq_true.mpr ⟨q, hq, by simp [hqx, hxk]⟩)

/-- Map delete keeps the keys without duplicates. -/
lemma keys_delAssoc (l : List (String × Nat)) (k : String)
    (hnd : (l.map Prod.fst).Nodup) :
    ((delAssoc l k).map Prod.fst).Nodup :=
  List.Nodup.sublist (List.Sublist.map Prod.fst (List.filter_sublist l)) hnd

/-- A successful lookup exposes its association pair. -/
lemma lookupAssoc_mem {l : List (String × Nat)} {k : String} {i : Nat}
    (h : lookupAssoc l k = some i) : (k, i) ∈ l := by
  unfold lookupAssoc at h
  cases hf : l.find? (fun p => p.1 == k) with
  | none => rw [hf] at h; exact Option.noConfusion h
  | some p =>
    rw [hf] at h
    have hp1 : p.1 = k := by simpa using List.find?_some hf
    have hp2 : p.2 = i := Option.some.inj h
    have hpe : p = (k, i) := by rw [← hp1, ← hp2]
    rw [← hpe]
    exact List.mem_of_find?_eq_some hf

/-- With distinct ids, a member is found under its own id. -/
lemma getById_self {records : List CategoryRecord}
    (hnd : (records.map (fun c => c.id)).Nodup) {c : CategoryRecord}
    (hc : c ∈ records) : getById records c.id = some c := by
  cases hfind : getById records c.id with
  | none =>
    have hno := List.find?_eq_none.mp hfind c hc
    simp at hno
  | some x =>
    rw [getById_unique hnd hfind hc rfl]

/-- Replacing the record with a matching id keeps the id list. -/
lemma replace_map_id (records : List CategoryRecord) (upd : CategoryRecord) :
    ((records.map (fun c => if c.id == upd.id then upd else c)).map
      (fun c => c.id)) = records.map (fun c => c.id) := by
  rw [List.map_map]
  apply List.map_congr_left
  intro c _
  by_cases h : c.id = upd.id
  · simp [h]
  · simp [h]

/-- Replacing the record with a matching id keeps the slugs duplicate-free
when the incoming slug collides with no other record. -/
lemma replace_map_slug_nodup (records : List CategoryRecord)
    (upd : CategoryRecord)
    (hndid : (records.map (fun c => c.id)).Nodup)
    (hnds : (records.map (fun c => c.slug)).Nodup)
    (hcol : ∀ c ∈ records, c.id ≠ upd.id → c.slug ≠ upd.slug) :
    ((records.map (fun c => if c.id == upd.id then upd else c)).map
      (fun c => c.slug)).Nodup := by
  induction records with
  | nil => simp
  | cons a t ih =>
    rw [List.map_cons] at hndid hnds
    rw [List.map_cons, List.map_cons]
    rw [List.nodup_cons] at hndid hnds ⊢
    refine ⟨?_, ih hndid.2 hnds.2
      (fun c hc => hcol c (List.mem_cons_of_mem a hc))⟩
    intro hmem
    rcases List.mem_map.mp hmem with ⟨c', hc', heq⟩
    rcases List.mem_map.mp hc' with ⟨c, hc, hceq⟩
    by_cases hakid : a.id = upd.id
    · have ha2 : (if a.id == upd.id then upd else a) = upd :=
        if_pos (beq_iff_eq.mpr hakid)
      rw [ha2] at heq
      have hcid : c.id ≠ upd.id := by
        intro hcon
        apply hndid.1
        rw [← hakid] at hcon
        exact List.mem_map.mpr ⟨c, hc, hcon⟩
      have hc2 : (if c.id == upd.id then upd else c) = c :=
        if_neg (by simpa using hcid)
      rw [hc2] at hceq
      rw [← hceq] at heq
      exact hcol c (List.mem_cons_of_mem a hc) hcid heq
    · have ha2 : (if a.id == upd.id then upd else a) = a :=
        if_neg (by simpa using hakid)
      rw [ha2] at heq
      by_cases hcid : c.id = upd.id
      · have hc2 : (if c.id == upd.id then upd else c) = upd :=
          if_pos (beq_iff_eq.mpr hcid)
        rw [hc2] at hceq
        rw [← hceq] at heq
        exact hcol a (List.mem_cons_self a t) hakid heq.symm
      · have hc2 : (if c.id == upd.id then upd else c) = c :=
          if_neg (by simpa using hcid)
        rw [hc2] at hceq
        rw [← hceq] at heq
        exact hnds.1 (List.mem_map.mpr ⟨c, hc, heq⟩)

/-- Members after the in-place replacement: the new record, or an old one
with a different id. -/
lemma mem_replace {records : List CategoryRecord} {upd c' : CategoryRecord}
    (h : c' ∈ records.map (fun c => if c.id == upd.id then upd else c)) :
    c' = upd ∨ (c' ∈ records ∧ c'.id ≠ upd.id) := by
  rcases List.mem_map.mp h with ⟨c, hc, hceq⟩
  by_cases hcid : c.id = upd.id
  · left
    rw [← hceq]
    exact if_pos (beq_iff_eq.mpr hcid)
  · right
    have hc2 : (if c.id == upd.id then upd else c) = c :=
      if_neg (by simpa using hcid)
    rw [hc2] at hceq
    rw [← hceq]
    exact ⟨hc, hcid⟩

/-- A record with a different id survives the in-place replacement. -/
lemma mem_replace_of_ne {records : List CategoryRecord}
    {upd c : CategoryRecord} (hc : c ∈ records) (hne : c.id ≠ upd.id) :
    c ∈ records.map (fun c0 => if c0.id == upd.id then upd else c0) :=
  List.mem_map.mpr ⟨c, hc, if_neg (by simpa using hne)⟩

/-- The new record lands in the in-place replacement when some member
carries its id. -/
lemma upd_mem_replace {records : List CategoryRecord}
    {upd existing : CategoryRecord} (hmem : existing ∈ records)
    (hid : existing.id = upd.id) :
    upd ∈ records.map (fun c0 => if c0.id == upd.id then upd else c0) :=
  List.mem_map.mpr ⟨existing, hmem, if_pos (beq_iff_eq.mpr hid)⟩

/-- A passing slug-uniqueness check pins any record carrying the slug to
the excluded id. -/
lemma validateUniqueSlug_ok {records : List CategoryRecord} {slug : String}
    {excl : Option Nat}
    (h : validateUniqueSlug records slug excl = .ok ()) :
    ∀ c ∈ records, c.slug = slug → some c.id = excl := by
  intro c hc hs
  unfold validateUniqueSlug at h
  cases hf : records.find? (fun c0 => c0.slug == slug && some c0.id != excl) with
  | some x => rw [hf] at h; exact Except.noConfusion h
  | none =>
    have hno := List.find?_eq_none.mp hf c hc
    by_contra hne
    apply hno
    simp [hs, hne]

/-- The store left by categoryUpdate: unchanged on any failure, otherwise
the one produced by the raw store update with the full patch, after the
record was found and the regenerated slug passed the uniqueness check. -/
lemma categoryUpdate_snd_cases (s : CategoryStore) (idv : Nat)
    (b : CategoryUpdateBody) (now : String)
    (res : Except ServiceErr CategoryRecord) (s2 : CategoryStore)
    (h : categoryUpdate s idv b now = (res, s2)) :
    s2 = s ∨
    ∃ u existing level,
      parseCategoryUpdate b = .ok u ∧
      getById s.records idv = some existing ∧
      validateUniqueSlug s.records (generateSlug u.name) (some idv) = .ok () ∧
      s2 = (storeUpdate s idv
        { name := some u.name, slug := some (generateSlug u.name),
          parentId := some u.parentId, level := some level,
          description := some u.description, imageUrl := some u.imageUrl,
          displayOrder := some u.displayOrder, active := some u.active,
          featured := some u.featured, metaTitle := some u.metaTitle,
          metaDescription := some u.metaDescription,
          dateModified := some now }).2 := by
  unfold categoryUpdate at h
  cases hp : parseCategoryUpdate b with
  | error e =>
    rw [hp] at h
    have h2 : ((Except.error e : Except ServiceErr CategoryRecord), s) =
        (res, s2) := h
    injection h2 with h21 h22
    exact Or.inl h22.symm
  | ok u =>
    rw [hp] at h
    have h2 : (match getById s.records idv with
      | none =>
        ((Except.error ⟨ErrCode.NOT_FOUND, "Category not found", 404⟩ :
          Except ServiceErr CategoryRecord), s)
      | some _ =>
        match validateUniqueNameAtLevel s.records u.name u.parentId
            (some idv) with
        | .error e => (.error e, s)
        | .ok () =>
          match validateNoCycle s.records idv u.parentId with
          | .error e => (.error e, s)
          | .ok () =>
            match validateUniqueSlug s.records (generateSlug u.name)
                (some idv) with
            | .error e => (.error e, s)
            | .ok () =>
              match calculateLevel s.records u.parentId with
              | .error e => (.error e, s)
              | .ok level =>
                match storeUpdate s idv
                    { name := some u.name,
                      slug := some (generateSlug u.name),
                      parentId := some u.parentId, level := some level,
                      description := some u.description,
                      imageUrl := some u.imageUrl,
                      displayOrder := some u.displayOrder,
                      active := some u.active, featured := some u.featured,
                      metaTitle := some u.metaTitle,
                      metaDescription := some u.metaDescription,
                      dateModified := some now } with
                | (some updated, s1) => (.ok updated, s1)
                | (none, s1) =>
                  (.error ⟨.INTERNAL, "Category not found", 500⟩, s1)) =
        (res, s2) := h
    cases hg : getById s.records idv with
    | none =>
      rw [hg] at h2
      have h3 : ((Except.error
          ⟨ErrCode.NOT_FOUND, "Category not found", 404⟩ :
          Except ServiceErr CategoryRecord), s) = (res, s2) := h2
      injection h3 with h31 h32
      exact Or.inl h32.symm
    | some existing =>
      rw [hg] at h2
      cases hv1 : validateUniqueNameAtLevel s.records u.name u.parentId
          (some idv) with
      | error e =>
        rw [hv1] at h2
        have h3 : ((Except.error e : Except ServiceErr CategoryRecord), s) =
            (res, s2) := h2
        injection h3 with h31 h32
        exact Or.inl h32.symm
      | ok v1 =>
        cases v1
        rw [hv1] at h2
        cases hv2 : validateNoCycle s.records idv u.parentId with
        | error e =>
          rw [hv2] at h2
          have h3 : ((Except.error e : Except ServiceErr CategoryRecord), s) =
              (res, s2) := h2
          injection h3 with h31 h32
          exact Or.inl h32.symm
        | ok v2 =>
          cases v2
          rw [hv2] at h2
          cases hv3 : validateUniqueSlug s.records (generateSlug u.name)
              (some idv) with
          | error e =>
            rw [hv3] at h2
            have h3 : ((Except.error e : Except ServiceErr CategoryRecord),
                s) = (res, s2) := h2
            injection h3 with h31 h32
            exact Or.inl h32.symm
          | ok v3 =>
            cases v3
            rw [hv3] at h2
            cases hlv : calculateLevel s.records u.parentId with
            | error e =>
              rw [hlv] at h2
              have h3 : ((Except.error e : Except ServiceErr CategoryRecord),
                  s) = (res, s2) := h2
              injection h3 with h31 h32
              exact Or.inl h32.symm
            | ok level =>
              rw [hlv] at h2
              have h3 : (match storeUpdate s idv
                    { name := some u.name,
                      slug := some (generateSlug u.name),
                      parentId := some u.parentId, level := some level,
                      description := some u.description,
                      imageUrl := some u.imageUrl,
                      displayOrder := some u.displayOrder,
                      active := some u.active, featured := some u.featured,
                      metaTitle := some u.metaTitle,
                      metaDescription := some u.metaDescription,
                      dateModified := some now } with
                | (some updated, s1) =>
                  ((Except.ok updated : Except ServiceErr CategoryRecord), s1)
                | (none, s1) =>
                  (Except.error ⟨ErrCode.INTERNAL, "Category not found", 500⟩,
                    s1)) = (res, s2) := h2
              rcases hsu : storeUpdate s idv
                  { name := some u.name,
                    slug := some (generateSlug u.name),
                    parentId := some u.parentId, level := some level,
                    description := some u.description,
                    imageUrl := some u.imageUrl,
                    displayOrder := some u.displayOrder,
                    active := some u.active, featured := some u.featured,
                    metaTitle := some u.metaTitle,
                    metaDescription := some u.metaDescription,
                    dateModified := some now } with ⟨fst, st1⟩
              rw [hsu] at h3
              cases fst with
              | none =>
                have h4 : ((Except.error
                    ⟨ErrCode.INTERNAL, "Category not found", 500⟩ :
                    Except ServiceErr CategoryRecord), st1) = (res, s2) := h3
                injection h4 with h41 h42
                refine Or.inr ⟨u, existing, level, rfl, rfl, hv3, ?_⟩
                rw [hsu]
                exact h42.symm
              | some updated =>
                have h4 : ((Except.ok updated :
                    Except ServiceErr CategoryRecord), st1) = (res, s2) := h3
                injection h4 with h41 h42
                refine Or.inr ⟨u, existing, level, rfl, rfl, hv3, ?_⟩
                rw [hsu]
                exact h42.symm

/-- Bumping the id counter preserves store sanity. -/
lemma good_bump {s : CategoryStore} (hg : GoodStore s) :
    GoodStore { s with currentId := s.currentId + 1 } := by
  obtain ⟨h1, h2, h3, h4, h5, h6⟩ := hg
  exact ⟨h1, h2, fun c hc => Nat.le_succ_of_le (h3 c hc), h4, h5, h6⟩

/-- Builder for store sanity from its six components. -/
lemma goodstore_of (records : List CategoryRecord)
    (idx : List (String × Nat)) (cur : Nat)
    (h1 : (records.map (fun c => c.id)).Nodup)
    (h2 : (records.map (fun c => c.slug)).Nodup)
    (h3 : ∀ c ∈ records, c.id ≤ cur)
    (h4 : ∀ c ∈ records, lookupAssoc idx c.slug = some c.id)
    (h5 : ∀ p ∈ idx, ∃ c ∈ records, c.slug = p.1 ∧ c.id = p.2)
    (h6 : (idx.map Prod.fst).Nodup) :
    GoodStore { records := records, slugIndex := idx, currentId := cur } :=
  ⟨h1, h2, h3, h4, h5, h6⟩

/-- The raw store update preserves store sanity when the patch carries a
nonempty slug that no record but the addressed one uses. -/
lemma good_storeUpdate (s : CategoryStore) (idv : Nat) (d : CategoryPatch)
    (sl : String) (hg : GoodStore s) (hdslug : d.slug = some sl)
    (hsl : sl ≠ "")
    (hvs : ∀ c ∈ s.records, c.slug = sl → c.id = idv) :
    GoodStore (storeUpdate s idv d).2 := by
  unfold storeUpdate
  cases hfind : getById s.records idv with
  | none => exact hg
  | some existing =>
    have hpt : patchSlugTruthy d = some sl := by
      show (match d.slug with
        | some s0 => if s0 = "" then none else some s0
        | none => none) = some sl
      rw [hdslug]
      show (if sl = "" then none else some sl) = some sl
      exact if_neg hsl
    show GoodStore { s with
      records := setRecordList s.records (applyPatch existing d),
      slugIndex :=
        match patchSlugTruthy d with
        | some newSlug =>
          if newSlug ≠ existing.slug then
            setAssoc (delAssoc s.slugIndex existing.slug) newSlug idv
          else s.slugIndex
        | none => s.slugIndex }
    rw [hpt]
    show GoodStore { s with
      records := setRecordList s.records (applyPatch existing d),
      slugIndex :=
        if sl ≠ existing.slug then
          setAssoc (delAssoc s.slugIndex existing.slug) sl idv
        else s.slugIndex }
    have hexid : existing.id = idv := getById_id hfind
    have hexmem : existing ∈ s.records := getById_mem hfind
    have hupdid : (applyPatch existing d).id = existing.id := rfl
    have hupdslug : (applyPatch existing d).slug = sl := by
      show d.slug.getD existing.slug = sl
      rw [hdslug]
      rfl
    have hanyid :
        s.records.any (fun c => c.id == (applyPatch existing d).id) = true :=
      List.any_eq_true.mpr ⟨existing, hexmem, by simp [applyPatch]⟩
    have hsrl : setRecordList s.records (applyPatch existing d) =
        s.records.map (fun c => if c.id == (applyPatch existing d).id
          then applyPatch existing d else c) := by
      unfold setRecordList
      rw [hanyid, if_pos rfl]
    obtain ⟨hndid, hnds, hbound, hlook, hpairs, hkeys⟩ := hg
    have hcol : ∀ c ∈ s.records, c.id ≠ (applyPatch existing d).id →
        c.slug ≠ (applyPatch existing d).slug := by
      intro c hc hcne hceq
      apply hcne
      rw [hupdid, hexid]
      apply hvs c hc
      rw [← hupdslug]
      exact hceq
    by_cases hss : sl = existing.slug
    · rw [if_neg (not_not_intro hss), hsrl]
      apply goodstore_of
      · rw [replace_map_id]
        exact hndid
      · exact replace_map_slug_nodup _ _ hndid hnds hcol
      · intro c' hc'
        rcases mem_replace hc' with rfl | ⟨hcm, _⟩
        · rw [hupdid]
          exact hbound existing hexmem
        · exact hbound _ hcm
      · intro c' hc'
        rcases mem_replace hc' with rfl | ⟨hcm, _⟩
        · rw [hupdslug, hss, hupdid]
          exact hlook existing hexmem
        · exact hlook _ hcm
      · intro p hp
        rcases hpairs p hp with ⟨c, hc, hcs, hcid⟩
        by_cases hcidu : c.id = (applyPatch existing d).id
        · have hce : c = existing :=
            List.inj_on_of_nodup_map hndid hc hexmem (by rw [hcidu, hupdid])
          refine ⟨applyPatch existing d,
            upd_mem_replace hexmem hupdid.symm, ?_, ?_⟩
          · rw [hupdslug, hss, ← hce]
            exact hcs
          · rw [hupdid, ← hce]
            exact hcid
        · exact ⟨c, mem_replace_of_ne hc hcidu, hcs, hcid⟩
      · exact hkeys
    · rw [if_pos hss, hsrl]
      apply goodstore_of
      · rw [replace_map_id]
        exact hndid
      · exact replace_map_slug_nodup _ _ hndid hnds hcol
      · intro c' hc'
        rcases mem_replace hc' with rfl | ⟨hcm, _⟩
        · rw [hupdid]
          exact hbound existing hexmem
        · exact hbound _ hcm
      · intro c' hc'
        rcases mem_replace hc' with rfl | ⟨hcm, hcne⟩
        · rw [hupdslug, hupdid, hexid]
          exact lookupAssoc_setAssoc_self _ _ _
        · have hc_ne_sl : c'.slug ≠ sl := by
            intro hcon
            apply hcne
            rw [hupdid, hexid]
            exact hvs c' hcm hcon
          have hc_ne_ex : c'.slug ≠ existing.slug := by
            intro hcon
            have hce : c' = existing :=
              List.inj_on_of_nodup_map hnds hcm hexmem hcon
            apply hcne
            rw [hce, hupdid]
          rw [lookupAssoc_setAssoc_ne _ _ _ _ hc_ne_sl,
            lookupAssoc_delAssoc_ne _ _ _ hc_ne_ex]
          exact hlook _ hcm
      · intro p hp
        rcases mem_setAssoc _ _ _ _ hp with rfl | ⟨hpd, hpne⟩
        · refine ⟨applyPatch existing d,
            upd_mem_replace hexmem hupdid.symm, ?_, ?_⟩
          · exact hupdslug
          · rw [hupdid]
            exact hexid
        · rcases mem_delAssoc _ _ _ hpd with ⟨hpidx, hpex⟩
          rcases hpairs p hpidx with ⟨c, hc, hcs, hcid⟩
          have hcne : c.id ≠ (applyPatch existing d).id := by
            intro hcon
            have hce : c = existing :=
              List.inj_on_of_nodup_map hndid hc hexmem (by rw [hcon, hupdid])
            apply hpex
            rw [← hcs, hce]
          exact ⟨c, mem_replace_of_ne hc hcne, hcs, hcid⟩
      · exact keys_setAssoc _ _ _ (keys_delAssoc _ _ hkeys)

/-- categoryUpdate preserves store sanity for slug-safe updates. -/
lemma good_update (s : CategoryStore) (idv : Nat) (b : CategoryUpdateBody)
    (now : String) (hg : GoodStore s)
    (hok : okOp (CatOp.update idv b now) = true) :
    GoodStore (categoryUpdate s idv b now).2 := by
  rcases hcu : categoryUpdate s idv b now with ⟨res, s2⟩
  show GoodStore s2
  rcases categoryUpdate_snd_cases s idv b now res s2 hcu with hsame |
    ⟨u, existing, level, hp, hgb, hvq, hs2⟩
  · rw [hsame]
    exact hg
  · rw [hs2]
    have hslne : generateSlug u.name ≠ "" := by
      have hok2 : (match parseCategoryUpdate b with
        | .ok u0 => generateSlug u0.name != ""
        | .error _ => true) = true := hok
      rw [hp] at hok2
      simpa using hok2
    apply good_storeUpdate s idv _ (generateSlug u.name) hg rfl hslne
    intro c hc hcs
    exact Option.some.inj (validateUniqueSlug_ok hvq c hc hcs)

/-- categoryDelete preserves store sanity. -/
lemma good_del (s : CategoryStore) (idv : Nat) (hg : GoodStore s) :
    GoodStore (categoryDelete s idv).2 := by
  unfold categoryDelete
  cases hfind : getById s.records idv with
  | none => exact hg
  | some existing =>
    show GoodStore (if (s.records.filter
        (fun c => c.parentId == some idv)).length > 0 then
        ((Except.error ⟨ErrCode.BUSINESS_RULE_ERROR,
          "Cannot delete category with subcategories", 400⟩ :
          Except ServiceErr Unit), s)
      else (Except.ok (), storeDelete s idv)).2
    by_cases hsub : (s.records.filter
        (fun c => c.parentId == some idv)).length > 0
    · rw [if_pos hsub]
      exact hg
    · rw [if_neg hsub]
      show GoodStore (storeDelete s idv)
      unfold storeDelete
      rw [hfind]
      show GoodStore { s with
        records := s.records.filter (fun c => c.id != idv),
        slugIndex := delAssoc s.slugIndex existing.slug }
      obtain ⟨hndid, hnds, hbound, hlook, hpairs, hkeys⟩ := hg
      have hexid : existing.id = idv := getById_id hfind
      have hexmem : existing ∈ s.records := getById_mem hfind
      apply goodstore_of
      · exact List.Nodup.sublist
          (List.Sublist.map _ (List.filter_sublist _)) hndid
      · exact List.Nodup.sublist
          (List.Sublist.map _ (List.filter_sublist _)) hnds
      · intro c hc
        exact hbound c (List.mem_of_mem_filter hc)
      · intro c hc
        have hcm := List.mem_filter.mp hc
        have hcne : c.id ≠ idv := by simpa using hcm.2
        have hcslug : c.slug ≠ existing.slug := by
          intro hcon
          have hce : c = existing :=
            List.inj_on_of_nodup_map hnds hcm.1 hexmem hcon
          apply hcne
          rw [hce, hexid]
        rw [lookupAssoc_delAssoc_ne _ _ _ hcslug]
        exact hlook c hcm.1
      · intro p hp
        rcases mem_delAssoc _ _ _ hp with ⟨hpidx, hpex⟩
        rcases hpairs p hpidx with ⟨c, hc, hcs, hcid⟩
        have hcne : c.id ≠ idv := by
          intro hcon
          have hce : c = existing :=
            List.inj_on_of_nodup_map hndid hc hexmem (by rw [hcon, hexid])
          apply hpex
          rw [← hcs, hce]
        refine ⟨c, ?_, hcs, hcid⟩
        exact List.mem_filter.mpr ⟨hc, by simpa using hcne⟩
      · exact keys_delAssoc _ _ hkeys

/-- The store left by categoryCreate: unchanged on validation failure, just
the bumped counter when the raw limit trips, otherwise the bumped counter
with the fresh record appended and its slug indexed, after the slug passed
the uniqueness check. -/
lemma categoryCreate_snd_cases (s : CategoryStore) (params : CreateInput)
    (now : String) (res : Except ServiceErr CategoryRecord)
    (s2 : CategoryStore) (h : categoryCreate s params now = (res, s2)) :
    s2 = s ∨ s2 = { s with currentId := s.currentId + 1 } ∨
    (validateUniqueSlug s.records (generateSlug params.name) none = .ok () ∧
     ∃ newc : CategoryRecord, newc.id = s.currentId + 1 ∧
       newc.slug = generateSlug params.name ∧
       s2 = { s with
              currentId := s.currentId + 1,
              records := setRecordList s.records newc,
              slugIndex := setAssoc s.slugIndex newc.slug newc.id }) := by
  unfold categoryCreate at h
  cases hv1 : validateUniqueNameAtLevel s.records params.name
      params.parentId none with
  | error e =>
    rw [hv1] at h
    have h2 : ((Except.error e : Except ServiceErr CategoryRecord), s) =
        (res, s2) := h
    injection h2 with h21 h22
    exact Or.inl h22.symm
  | ok v1 =>
    cases v1
    rw [hv1] at h
    cases hv2 : validateUniqueSlug s.records (generateSlug params.name)
        none with
    | error e =>
      rw [hv2] at h
      have h2 : ((Except.error e : Except ServiceErr CategoryRecord), s) =
          (res, s2) := h
      injection h2 with h21 h22
      exact Or.inl h22.symm
    | ok v2 =>
      cases v2
      rw [hv2] at h
      cases hlv : calculateLevel s.records params.parentId with
      | error e =>
        rw [hlv] at h
        have h2 : ((Except.error e : Except ServiceErr CategoryRecord), s) =
            (res, s2) := h
        injection h2 with h21 h22
        exact Or.inl h22.symm
      | ok level =>
        rw [hlv] at h
        have h3 : (match storeAdd { s with currentId := s.currentId + 1 }
            { id := s.currentId + 1, name := params.name,
              slug := generateSlug params.name, parentId := params.parentId,
              level := level, description := params.description,
              imageUrl := params.imageUrl,
              displayOrder := params.displayOrder.getD 0,
              active := params.active.getD true,
              featured := params.featured.getD false,
              metaTitle := params.metaTitle,
              metaDescription := params.metaDescription, productCount := 0,
              dateCreated := now, dateModified := now } with
          | .error e => ((Except.error e : Except ServiceErr CategoryRecord),
              { s with currentId := s.currentId + 1 })
          | .ok s2a => (Except.ok
              { id := s.currentId + 1, name := params.name,
                slug := generateSlug params.name,
                parentId := params.parentId,
                level := level, description := params.description,
                imageUrl := params.imageUrl,
                displayOrder := params.displayOrder.getD 0,
                active := params.active.getD true,
                featured := params.featured.getD false,
                metaTitle := params.metaTitle,
                metaDescription := params.metaDescription,
                productCount := 0,
                dateCreated := now, dateModified := now }, s2a)) =
            (res, s2) := h
        cases hsa : storeAdd { s with currentId := s.currentId + 1 }
            { id := s.currentId + 1, name := params.name,
              slug := generateSlug params.name, parentId := params.parentId,
              level := level, description := params.description,
              imageUrl := params.imageUrl,
              displayOrder := params.displayOrder.getD 0,
              active := params.active.getD true,
              featured := params.featured.getD false,
              metaTitle := params.metaTitle,
              metaDescription := params.metaDescription, productCount := 0,
              dateCreated := now, dateModified := now } with
        | error e =>
          rw [hsa] at h3
          have h4 : ((Except.error e : Except ServiceErr CategoryRecord),
              { s with currentId := s.currentId + 1 }) = (res, s2) := h3
          injection h4 with h41 h42
          exact Or.inr (Or.inl h42.symm)
        | ok s2a =>
          rw [hsa] at h3
          have h4 : ((Except.ok
              { id := s.currentId + 1, name := params.name,
                slug := generateSlug params.name,
                parentId := params.parentId,
                level := level, description := params.description,
                imageUrl := params.imageUrl,
                displayOrder := params.displayOrder.getD 0,
                active := params.active.getD true,
                featured := params.featured.getD false,
                metaTitle := params.metaTitle,
                metaDescription := params.metaDescription,
                productCount := 0,
                dateCreated := now, dateModified := now } :
              Except ServiceErr CategoryRecord), s2a) = (res, s2) := h3
          injection h4 with h41 h42
          have hsa2 : (if s.records.length ≥ MAX_RECORDS then
              (Except.error ⟨ErrCode.INTERNAL,
                "Maximum records limit reached", 500⟩ :
                Except ServiceErr CategoryStore)
            else .ok { s with
              currentId := s.currentId + 1,
              records := setRecordList s.records
                { id := s.currentId + 1, name := params.name,
                  slug := generateSlug params.name,
                  parentId := params.parentId,
                  level := level, description := params.description,
                  imageUrl := params.imageUrl,
                  displayOrder := params.displayOrder.getD 0,
                  active := params.active.getD true,
                  featured := params.featured.getD false,
                  metaTitle := params.metaTitle,
                  metaDescription := params.metaDescription,
                  productCount := 0,
                  dateCreated := now, dateModified := now },
              slugIndex := setAssoc s.slugIndex (generateSlug params.name)
                (s.currentId + 1) }) = .ok s2a := hsa
          by_cases hlim : s.records.length ≥ MAX_RECORDS
          · rw [if_pos hlim] at hsa2
            exact Except.noConfusion hsa2
          · rw [if_neg hlim] at hsa2
            have h5 := Except.ok.inj hsa2
            have h6 : s2 = { s with
                currentId := s.currentId + 1,
                records := setRecordList s.records
                  { id := s.currentId + 1, name := params.name,
                    slug := generateSlug params.name,
                    parentId := params.parentId,
                    level := level, description := params.description,
                    imageUrl := params.imageUrl,
                    displayOrder := params.displayOrder.getD 0,
                    active := params.active.getD true,
                    featured := params.featured.getD false,
                    metaTitle := params.metaTitle,
                    metaDescription := params.metaDescription,
                    productCount := 0,
                    dateCreated := now, dateModified := now },
                slugIndex := setAssoc s.slugIndex (generateSlug params.name)
                  (s.currentId + 1) } := by
              rw [← h42, ← h5]
            exact Or.inr (Or.inr ⟨rfl,
              { id := s.currentId + 1, name := params.name,
                slug := generateSlug params.name,
                parentId := params.parentId,
                level := level, description := params.description,
                imageUrl := params.imageUrl,
                displayOrder := params.displayOrder.getD 0,
                active := params.active.getD true,
                featured := params.featured.getD false,
                metaTitle := params.metaTitle,
                metaDescription := params.metaDescription,
                productCount := 0,
                dateCreated := now, dateModified := now },
              rfl, rfl, h6⟩)

/-- categoryCreate preserves store sanity. -/
lemma good_create (s : CategoryStore) (params : CreateInput) (now : String)
    (hg : GoodStore s) : GoodStore (categoryCreate s params now).2 := by
  rcases hcc : categoryCreate s params now with ⟨res, s2⟩
  show GoodStore s2
  rcases categoryCreate_snd_cases s params now res s2 hcc with h | h |
    ⟨hvs, newc, hncid, hncslug, h⟩
  · rw [h]
    exact hg
  · rw [h]
    exact good_bump hg
  · rw [h]
    obtain ⟨hndid, hnds, hbound, hlook, hpairs, hkeys⟩ := hg
    have hnocol : ∀ c ∈ s.records, c.slug ≠ newc.slug := by
      intro c hc hcon
      have hpin := validateUniqueSlug_ok hvs c hc (by rw [hcon, hncslug])
      exact Option.noConfusion hpin
    have hanyid : s.records.any (fun c => c.id == newc.id) = false := by
      rw [List.any_eq_false]
      intro c hc
      have hcne : c.id ≠ newc.id := by
        rw [hncid]
        have := hbound c hc
        omega
      simpa using hcne
    have hsrl : setRecordList s.records newc = s.records ++ [newc] := by
      unfold setRecordList
      rw [hanyid, if_neg Bool.false_ne_true]
    rw [hsrl]
    apply goodstore_of
    · rw [List.map_append]
      refine List.Nodup.append hndid (by simp) ?_
      intro x hx hx2
      have hxe : x = newc.id := by simpa using hx2
      rcases List.mem_map.mp hx with ⟨c, hc, hcx⟩
      have hcb := hbound c hc
      rw [hncid] at hxe
      omega
    · rw [List.map_append]
      refine List.Nodup.append hnds (by simp) ?_
      intro x hx hx2
      have hxe : x = newc.slug := by simpa using hx2
      rcases List.mem_map.mp hx with ⟨c, hc, hcx⟩
      apply hnocol c hc
      rw [hcx, hxe]
    · intro c hc
      rcases List.mem_append.mp hc with hcl | hcr
      · exact Nat.le_succ_of_le (hbound c hcl)
      · have hce : c = newc := by simpa using hcr
        rw [hce, hncid]
    · intro c hc
      rcases List.mem_append.mp hc with hcl | hcr
      · rw [lookupAssoc_setAssoc_ne _ _ _ _ (hnocol c hcl)]
        exact hlook c hcl
      · have hce : c = newc := by simpa using hcr
        rw [hce]
        exact lookupAssoc_setAssoc_self _ _ _
    · intro p hp
      rcases mem_setAssoc _ _ _ _ hp with rfl | ⟨hpidx, hpne⟩
      · exact ⟨newc, List.mem_append.mpr (Or.inr (by simp)), rfl, rfl⟩
      · rcases hpairs p hpidx with ⟨c, hc, hcs, hcid⟩
        exact ⟨c, List.mem_append.mpr (Or.inl hc), hcs, hcid⟩
    · exact keys_setAssoc _ _ _ hkeys

/-- Any slug-safe service call preserves store sanity. -/
lemma good_applyOp (s : CategoryStore) (op : CatOp) (hg : GoodStore s)
    (hok : okOp op = true) : GoodStore (applyOp s op) := by
  cases op with
  | create params now => exact good_create s params now hg
  | update idv b now => exact good_update s idv b now hg hok
  | del idv => exact good_del s idv hg

/-- A sequence of slug-safe service calls preserves store sanity. -/
lemma good_foldl : ∀ (ops : List CatOp) (s : CategoryStore), GoodStore s →
    (∀ op ∈ ops, okOp op = true) → GoodStore (ops.foldl applyOp s)
  | [], _, hg, _ => hg
  | op :: t, s, hg, hok =>
    good_foldl t (applyOp s op)
      (good_applyOp s op hg (hok op (List.mem_cons_self op t)))
      (fun o ho => hok o (List.mem_cons_of_mem op ho))

/-- The seeded store is sane. -/
lemma good_seed : GoodStore seedStore := by
  refine ⟨?_, ?_, ?_, ?_, ?_, ?_⟩ <;> decide

/-- A sane store answers slug lookups consistently: every record is found
under its own slug, and a hit is always backed by a record carrying the
queried slug. -/
lemma good_getBySlug (s : CategoryStore) (hg : GoodStore s) :
    (∀ c ∈ s.records, getBySlug s c.slug = some c) ∧
    (∀ sl r, getBySlug s sl = some r → ∃ c ∈ s.records, c.slug = sl) := by
  obtain ⟨hndid, hnds, hbound, hlook, hpairs, hkeys⟩ := hg
  constructor
  · intro c hc
    unfold getBySlug
    rw [hlook c hc]
    exact getById_self hndid hc
  · intro sl r h
    unfold getBySlug at h
    cases hl : lookupAssoc s.slugIndex sl with
    | none =>
      rw [hl] at h
      exact Option.noConfusion h
    | some i =>
      rcases hpairs (sl, i) (lookupAssoc_mem hl) with ⟨c, hc, hcs, _⟩
      exact ⟨c, hc, hcs⟩

/-- Claim C10 (amended): slug-index consistency holds after any sequence of
category service calls from the seeded store in which no update regenerates
an empty slug: every stored category is retrieved by its own slug, and a
slug hit is always backed by a stored category carrying that slug. An
update whose new name normalises to the empty slug breaks the invariant,
because the store skips the reindexing for a falsy slug while still
overwriting the record. -/
theorem claim_C10 (ops : List CatOp)
    (hok : ∀ op ∈ ops, okOp op = true) :
    (∀ c ∈ (ops.foldl applyOp seedStore).records,
        getBySlug (ops.foldl applyOp seedStore) c.slug = some c) ∧
    (∀ sl r, getBySlug (ops.foldl applyOp seedStore) sl = some r →
        ∃ c ∈ (ops.foldl applyOp seedStore).records, c.slug = sl) :=
  good_getBySlug _ (good_foldl ops seedStore good_seed hok)

/-- Category update body whose name is made of punctuation only, so the
regenerated slug is empty; every field is supplied and passes validation. -/
def c10badBody : CategoryUpdateBody :=
  { name := some "!!", parentId := some none,
    description := some none, imageUrl := some none, displayOrder := some 0,
    active := some true, featured := some false, metaTitle := some none,
    metaDescription := some none }

/-- Claim C10 counterexample: one categoryUpdate from the seeded store,
renaming category 2 to a punctuation-only name, leaves the slug index
pointing a record under the stale slug while no stored category carries
that slug any more; the claimed invariant fails after this operation
sequence. -/
theorem claim_C10_counterexample :
    (getBySlug ([CatOp.update 2 c10badBody "2026-01-01T00:00:00.000Z"].foldl
        applyOp seedStore) "quarto").isSome = true ∧
    ([CatOp.update 2 c10badBody "2026-01-01T00:00:00.000Z"].foldl
        applyOp seedStore).records.all (fun c => c.slug != "quarto") = true := by
  constructor
  · decide
  · decide

/-- One slug-safe operation sequence used to witness the amended claim. -/
def c10ops : List CatOp := [CatOp.del 4]

/-- Witness for claim C10: after deleting seeded category 4, the store that
remains answers the slug lookup of one of its records with that record,
via the theorem with the slug-safety hypothesis discharged concretely. -/
theorem claim_C10_witness :
    (∀ op ∈ c10ops, okOp op = true) ∧
    ∃ c, c ∈ (c10ops.foldl applyOp seedStore).records ∧
      getBySlug (c10ops.foldl applyOp seedStore) c.slug = some c := by
  have hok : ∀ op ∈ c10ops, okOp op = true := by decide
  have h := (claim_C10 c10ops hok).1
  rcases hrec : (c10ops.foldl applyOp seedStore).records with _ | ⟨c0, rest⟩
  · exact absurd hrec (by decide)
  · have hmem : c0 ∈ (c10ops.foldl applyOp seedStore).records := by
      rw [hrec]
      exact List.mem_cons_self c0 rest
    exact ⟨hok, c0, List.mem_cons_self c0 rest, h c0 hmem⟩
